import Mathlib

/-!
Shallow embedding of the STM32 I2S driver streaming engine
(drivers/i2s/i2s_ll_stm32.c) and proofs of the frozen claims about it.

Conventions of the embedding:
* machine integers (uint16 ring-buffer indices, int return codes) are
  modelled as `Nat` / `Int`; the indices never overflow because the code
  keeps them strictly below the ring length via `MODULO_INC`;
* memory-block pointers are opaque handles modelled as `Nat`;
* a `k_mem_slab` is modelled as the list of free block handles;
* fallible C functions returning `0 / -errno` are modelled either as
  `Option` (for the pure queue operations) or as `Int × State` pairs
  (for the driver entry points, which thread the device state);
* the compile-time `#ifdef` policies (RX overrun drop, TX underrun
  last-repeat, full duplex) become fields of an explicit `Policy` record,
  tested exactly where the C tests the corresponding `#ifdef`;
* external collaborators (DMA engine, peripheral registers) are modelled
  by explicit fields of `HwState`; results of external DMA calls are
  passed in as `Int` parameters.
-/

namespace I2S

/-- Queue entry: a (memory block handle, byte size) pair, mirroring
`struct queue_item`. -/
structure QueueItem where
  mem_block : Nat
  size : Nat
deriving DecidableEq

/-- Bounded circular buffer, mirroring `struct ring_buf`:
a backing array `buf` of physical length `len` and the two indices. -/
structure RingBuf where
  buf : List QueueItem
  len : Nat
  head : Nat
  tail : Nat
deriving DecidableEq

/-- Mirrors the C macro `MODULO_INC(val, max)`:
`val = (++val < max) ? val : 0`. -/
def MODULO_INC (val max : Nat) : Nat :=
  if val + 1 < max then val + 1 else 0

/-- Mirrors `queue_get`: fails (returns `-ENOMEM`, here `none`) when
`tail == head`, otherwise reads the item at `tail` and advances `tail`. -/
def queue_get (rb : RingBuf) : Option (RingBuf × QueueItem) :=
  if rb.tail = rb.head then
    none
  else
    some ({ rb with tail := MODULO_INC rb.tail rb.len },
          rb.buf.getD rb.tail ⟨0, 0⟩)

/-- Mirrors `queue_put`: computes `head_next`, fails (returns `-ENOMEM`,
here `none`) when `head_next == tail` (one slot stays reserved), otherwise
writes the item at `head` and advances `head`. -/
def queue_put (rb : RingBuf) (mem_block : Nat) (size : Nat) : Option RingBuf :=
  let head_next := MODULO_INC rb.head rb.len
  if head_next = rb.tail then
    none
  else
    some { rb with buf := rb.buf.set rb.head ⟨mem_block, size⟩, head := head_next }

/-- Number of occupied entries of a ring buffer, `(head + len - tail) % len`. -/
def rbCount (rb : RingBuf) : Nat :=
  (rb.head + rb.len - rb.tail) % rb.len

/-- A ring buffer in its initial all-zero state, with `C + 1` physical
slots: this is exactly the `rx_ring_buf[CONFIG_..._BLOCK_COUNT + 1]`
static array with `head = tail = 0`. -/
def emptyRB (C : Nat) : RingBuf :=
  { buf := List.replicate (C + 1) ⟨0, 0⟩, len := C + 1, head := 0, tail := 0 }

/-- Coupling relation: ring buffer `rb` represents the FIFO list `l`
(front of `l` = next element returned by `queue_get`). -/
def abstracted (rb : RingBuf) (l : List QueueItem) : Prop :=
  rb.buf.length = rb.len ∧ rb.tail < rb.len ∧ rb.head < rb.len ∧
  l.length < rb.len ∧ rb.head = (rb.tail + l.length) % rb.len ∧
  ∀ i, i < l.length → rb.buf.getD ((rb.tail + i) % rb.len) ⟨0, 0⟩ = l.getD i ⟨0, 0⟩

instance (rb : RingBuf) (l : List QueueItem) : Decidable (abstracted rb l) := by
  unfold abstracted
  infer_instance

/-! Arithmetic helpers for the modular index reasoning. -/

theorem modulo_inc_eq (v len : Nat) (h : v < len) :
    MODULO_INC v len = (v + 1) % len := by
  unfold MODULO_INC
  by_cases hc : v + 1 < len
  · simp [hc, Nat.mod_eq_of_lt hc]
  · have hv : v + 1 = len := by omega
    simp [hc, hv]

theorem mod_cases (a len : Nat) (h : a < 2 * len) (hlen : 0 < len) :
    a % len = if a < len then a else a - len := by
  by_cases hc : a < len
  · simp [hc, Nat.mod_eq_of_lt hc]
  · have h2 : a - len < len := by omega
    have h3 : a % len = (a - len) % len := Nat.mod_eq_sub_mod (by omega)
    simp [hc, h3, Nat.mod_eq_of_lt h2]

theorem add_mod_eq_self_iff (t m len : Nat) (h1 : t < len) (h2 : m < len) :
    (t + m) % len = t ↔ m = 0 := by
  have hm := mod_cases (t + m) len (by omega) (by omega)
  rw [hm]
  by_cases hc : t + m < len <;> simp [hc] <;> omega

/-! List helpers (index/update interaction), proved from scratch. -/

theorem listGetD_set_ne {α : Type} :
    ∀ (l : List α) (i j : Nat) (a d : α), i ≠ j →
      (l.set i a).getD j d = l.getD j d
  | [], _, _, _, _, _ => rfl
  | _ :: _, 0, 0, _, _, h => absurd rfl h
  | _ :: _, 0, _ + 1, _, _, _ => rfl
  | _ :: _, _ + 1, 0, _, _, _ => rfl
  | _ :: xs, i + 1, j + 1, a, d, h =>
      listGetD_set_ne xs i j a d (fun he => h (by rw [he]))

theorem listGetD_set_self {α : Type} :
    ∀ (l : List α) (i : Nat) (a d : α), i < l.length →
      (l.set i a).getD i d = a
  | [], _, _, _, h => absurd h (by simp)
  | _ :: _, 0, _, _, _ => rfl
  | _ :: xs, i + 1, a, d, h =>
      listGetD_set_self xs i a d (Nat.lt_of_succ_lt_succ h)

theorem listGetD_append_left {α : Type} :
    ∀ (l1 l2 : List α) (i : Nat) (d : α), i < l1.length →
      (l1 ++ l2).getD i d = l1.getD i d
  | [], _, _, _, h => absurd h (by simp)
  | _ :: _, _, 0, _, _ => rfl
  | _ :: xs, l2, i + 1, d, h =>
      listGetD_append_left xs l2 i d (Nat.lt_of_succ_lt_succ h)

theorem listGetD_append_len {α : Type} :
    ∀ (l : List α) (x : α) (d : α), (l ++ [x]).getD l.length d = x
  | [], _, _ => rfl
  | _ :: xs, x, d => listGetD_append_len xs x d

/-! Refinement lemmas: `queue_get`/`queue_put` against the list model. -/

theorem abstracted_empty_iff {rb : RingBuf} {l : List QueueItem}
    (h : abstracted rb l) : rb.tail = rb.head ↔ l = [] := by
  obtain ⟨_, ht, _, hl, hhead, _⟩ := h
  constructor
  · intro he
    have h2 : (rb.tail + l.length) % rb.len = rb.tail := by rw [← hhead, he]
    have h3 := (add_mod_eq_self_iff rb.tail l.length rb.len ht hl).1 h2
    exact List.length_eq_zero.1 h3
  · intro he
    subst he
    simp only [List.length_nil, Nat.add_zero] at hhead
    rw [hhead, Nat.mod_eq_of_lt ht]

theorem queue_get_empty {rb : RingBuf} (h : abstracted rb []) :
    queue_get rb = none := by
  have he : rb.tail = rb.head := (abstracted_empty_iff h).2 rfl
  simp [queue_get, he]

theorem queue_get_cons {rb : RingBuf} {x : QueueItem} {l : List QueueItem}
    (h : abstracted rb (x :: l)) :
    queue_get rb = some ({ rb with tail := (rb.tail + 1) % rb.len }, x) ∧
    abstracted { rb with tail := (rb.tail + 1) % rb.len } l := by
  have hne : ¬ rb.tail = rb.head := by
    intro he
    exact List.cons_ne_nil x l ((abstracted_empty_iff h).1 he)
  obtain ⟨hb, ht, hh, hl, hhead, hidx⟩ := h
  have hlen : 0 < rb.len := by omega
  have hx : rb.buf.getD rb.tail ⟨0, 0⟩ = x := by
    have h0 := hidx 0 (by simp)
    simpa [Nat.mod_eq_of_lt ht] using h0
  refine ⟨?_, ?_, Nat.mod_lt _ hlen, hh, by simp at hl ⊢; omega, ?_, ?_⟩
  · unfold queue_get
    rw [if_neg hne, modulo_inc_eq rb.tail rb.len ht, hx]
  · exact hb
  · rw [Nat.mod_add_mod]
    have he : rb.tail + 1 + l.length = rb.tail + (x :: l).length := by
      simp; omega
    rw [he, ← hhead]
  · intro i hi
    rw [Nat.mod_add_mod]
    have he2 : rb.tail + 1 + i = rb.tail + (i + 1) := by omega
    rw [he2]
    have h1 := hidx (i + 1) (by simp; omega)
    simpa using h1

theorem queue_put_full {rb : RingBuf} {l : List QueueItem} (mb sz : Nat)
    (h : abstracted rb l) (hfull : l.length = rb.len - 1) :
    queue_put rb mb sz = none := by
  obtain ⟨hb, ht, hh, hl, hhead, hidx⟩ := h
  have hlen : 0 < rb.len := by omega
  have hnext : MODULO_INC rb.head rb.len = rb.tail := by
    rw [modulo_inc_eq rb.head rb.len hh, hhead, Nat.mod_add_mod]
    have he : rb.tail + l.length + 1 = rb.tail + rb.len := by omega
    rw [he, Nat.add_mod_right, Nat.mod_eq_of_lt ht]
  simp [queue_put, hnext]

/-- The canonical successor ring buffer after a successful `queue_put`. -/
def rbAfterPut (rb : RingBuf) (mb sz : Nat) : RingBuf :=
  { rb with buf := rb.buf.set rb.head ⟨mb, sz⟩, head := (rb.head + 1) % rb.len }

theorem queue_put_ok {rb : RingBuf} {l : List QueueItem} (mb sz : Nat)
    (h : abstracted rb l) (hroom : l.length + 1 < rb.len) :
    queue_put rb mb sz = some (rbAfterPut rb mb sz) ∧
    abstracted (rbAfterPut rb mb sz) (l ++ [⟨mb, sz⟩]) := by
  obtain ⟨hb, ht, hh, hl, hhead, hidx⟩ := h
  have hlen : 0 < rb.len := by omega
  have hnext : MODULO_INC rb.head rb.len = (rb.tail + (l.length + 1)) % rb.len := by
    rw [modulo_inc_eq rb.head rb.len hh, hhead, Nat.mod_add_mod]
    have he : rb.tail + l.length + 1 = rb.tail + (l.length + 1) := by omega
    rw [he]
  have hne : ¬ MODULO_INC rb.head rb.len = rb.tail := by
    rw [hnext]
    intro he
    have := (add_mod_eq_self_iff rb.tail (l.length + 1) rb.len ht (by omega)).1 he
    omega
  constructor
  · simp only [queue_put]
    rw [if_neg hne]
    simp only [rbAfterPut]
    rw [modulo_inc_eq rb.head rb.len hh]
  · refine ⟨?_, ht, Nat.mod_lt _ hlen, ?_, ?_, ?_⟩
    · simp [rbAfterPut, hb]
    · simp [rbAfterPut]; omega
    · simp only [rbAfterPut]
      rw [hhead, Nat.mod_add_mod]
      congr 1
      simp
      omega
    · intro i hi
      simp only [rbAfterPut, List.length_append, List.length_singleton] at hi ⊢
      by_cases hc : i < l.length
      · have hne2 : rb.head ≠ (rb.tail + i) % rb.len := by
          rw [hhead]
          intro he
          have m1 := mod_cases (rb.tail + l.length) rb.len (by omega) hlen
          have m2 := mod_cases (rb.tail + i) rb.len (by omega) hlen
          rw [m1, m2] at he
          by_cases c1 : rb.tail + l.length < rb.len <;>
            by_cases c2 : rb.tail + i < rb.len <;>
            simp [c1, c2] at he <;> omega
        rw [listGetD_set_ne rb.buf rb.head ((rb.tail + i) % rb.len) ⟨mb, sz⟩ ⟨0, 0⟩ hne2]
        rw [hidx i hc]
        exact (listGetD_append_left l [⟨mb, sz⟩] i ⟨0, 0⟩ hc).symm
      · have hieq : i = l.length := by omega
        subst hieq
        rw [← hhead]
        rw [listGetD_set_self rb.buf rb.head ⟨mb, sz⟩ ⟨0, 0⟩ (by rw [hb]; exact hh)]
        exact (listGetD_append_len l ⟨mb, sz⟩ ⟨0, 0⟩).symm

theorem queue_put_isSome {rb : RingBuf} {l : List QueueItem} (mb sz : Nat)
    (h : abstracted rb l) :
    (queue_put rb mb sz).isSome ↔ l.length + 1 < rb.len := by
  have hl : l.length < rb.len := h.2.2.2.1
  constructor
  · intro hs
    by_contra hc
    have hfull : l.length = rb.len - 1 := by omega
    rw [queue_put_full mb sz h hfull] at hs
    simp at hs
  · intro hroom
    rw [(queue_put_ok mb sz h hroom).1]
    simp

theorem abstracted_count {rb : RingBuf} {l : List QueueItem}
    (h : abstracted rb l) : rbCount rb = l.length := by
  obtain ⟨_, ht, hh, hl, hhead, _⟩ := h
  have hlen : 0 < rb.len := by omega
  unfold rbCount
  rw [hhead]
  have m := mod_cases (rb.tail + l.length) rb.len (by omega) hlen
  rw [m]
  by_cases hc : rb.tail + l.length < rb.len
  · rw [if_pos hc]
    have he : rb.tail + l.length + rb.len - rb.tail = l.length + rb.len := by omega
    rw [he, Nat.add_mod_right, Nat.mod_eq_of_lt hl]
  · rw [if_neg hc]
    have he : rb.tail + l.length - rb.len + rb.len - rb.tail = l.length := by omega
    rw [he, Nat.mod_eq_of_lt hl]

theorem abstracted_emptyRB (C : Nat) : abstracted (emptyRB C) [] := by
  refine ⟨by simp [emptyRB], by simp [emptyRB], by simp [emptyRB], by simp [emptyRB], ?_, ?_⟩
  · simp [emptyRB]
  · intro i hi
    simp at hi

/-! Operation traces over a Block Queue, for the end-to-end FIFO claim. -/

/-- One queue operation: a `queue_put` of a (block, size) pair, or a
`queue_get`. -/
inductive QOp where
  | put (mem_block : Nat) (size : Nat)
  | get
deriving DecidableEq

/-- Run a sequence of queue operations, requiring every operation to
succeed; returns the final ring buffer and the items returned by the
`get`s, in order. -/
def runQueue : RingBuf → List QOp → Option (RingBuf × List QueueItem)
  | rb, [] => some (rb, [])
  | rb, QOp.put mb sz :: ops =>
    (queue_put rb mb sz).bind (fun rb2 => runQueue rb2 ops)
  | rb, QOp.get :: ops =>
    (queue_get rb).bind (fun p =>
      (runQueue p.1 ops).map (fun q => (q.1, p.2 :: q.2)))

/-- The items put by a trace, in order. -/
def putsOf : List QOp → List QueueItem
  | [] => []
  | QOp.put mb sz :: ops => ⟨mb, sz⟩ :: putsOf ops
  | QOp.get :: ops => putsOf ops

/-- Number of puts in a trace. -/
def numPuts : List QOp → Nat
  | [] => 0
  | QOp.put _ _ :: ops => numPuts ops + 1
  | QOp.get :: ops => numPuts ops

/-- Number of gets in a trace. -/
def numGets : List QOp → Nat
  | [] => 0
  | QOp.put _ _ :: ops => numGets ops
  | QOp.get :: ops => numGets ops + 1

theorem putsOf_length : ∀ ops : List QOp, (putsOf ops).length = numPuts ops
  | [] => rfl
  | QOp.put _ _ :: ops => by simp [putsOf, numPuts, putsOf_length ops]
  | QOp.get :: ops => by simp [putsOf, numPuts, putsOf_length ops]

theorem queue_put_len {rb rb2 : RingBuf} {mb sz : Nat}
    (h : queue_put rb mb sz = some rb2) : rb2.len = rb.len := by
  unfold queue_put at h
  by_cases hc : MODULO_INC rb.head rb.len = rb.tail
  · simp [hc] at h
  · simp [hc] at h
    rw [← h]

theorem queue_get_len {rb rb2 : RingBuf} {it : QueueItem}
    (h : queue_get rb = some (rb2, it)) : rb2.len = rb.len := by
  unfold queue_get at h
  by_cases hc : rb.tail = rb.head
  · simp [hc] at h
  · simp [hc] at h
    rw [← h.1]

theorem runQueue_len :
    ∀ (ops : List QOp) (rb rb2 : RingBuf) (gots : List QueueItem),
      runQueue rb ops = some (rb2, gots) → rb2.len = rb.len := by
  intro ops
  induction ops with
  | nil =>
    intro rb rb2 gots h
    simp [runQueue] at h
    rw [← h.1]
  | cons op ops ih =>
    intro rb rb2 gots h
    cases op with
    | put mb sz =>
      rw [runQueue] at h
      cases hput : queue_put rb mb sz with
      | none => rw [hput] at h; simp at h
      | some rbp =>
        rw [hput] at h
        simp only [Option.some_bind] at h
        rw [ih rbp rb2 gots h, queue_put_len hput]
    | get =>
      rw [runQueue] at h
      cases hget : queue_get rb with
      | none => rw [hget] at h; simp at h
      | some p =>
        rw [hget] at h
        simp only [Option.some_bind] at h
        cases hrest : runQueue p.1 ops with
        | none => rw [hrest] at h; simp at h
        | some q =>
          rw [hrest] at h
          simp at h
          obtain ⟨p1, p2⟩ := p
          rw [← h.1, ih p1 q.1 q.2 (by rw [hrest]), queue_get_len hget]

theorem runQueue_abstracted :
    ∀ (ops : List QOp) (rb : RingBuf) (l : List QueueItem)
      (rb2 : RingBuf) (gots : List QueueItem),
      abstracted rb l → runQueue rb ops = some (rb2, gots) →
      gots = (l ++ putsOf ops).take (numGets ops) ∧
      abstracted rb2 ((l ++ putsOf ops).drop (numGets ops)) ∧
      numGets ops ≤ l.length + numPuts ops := by
  intro ops
  induction ops with
  | nil =>
    intro rb l rb2 gots h hrun
    simp [runQueue] at hrun
    obtain ⟨h1, h2⟩ := hrun
    subst h1; subst h2
    simpa [putsOf, numGets, numPuts] using h
  | cons op ops ih =>
    intro rb l rb2 gots h hrun
    cases op with
    | put mb sz =>
      by_cases hroom : l.length + 1 < rb.len
      · obtain ⟨hput, habs⟩ := queue_put_ok mb sz h hroom
        rw [runQueue, hput] at hrun
        simp only [Option.some_bind] at hrun
        have hres := ih (rbAfterPut rb mb sz) (l ++ [⟨mb, sz⟩]) rb2 gots habs hrun
        obtain ⟨h1, h2, h3⟩ := hres
        refine ⟨?_, ?_, ?_⟩
        · rw [h1]
          simp [putsOf, numGets, List.append_assoc]
        · rw [List.append_assoc] at h2
          simpa [putsOf, numGets] using h2
        · simp [numGets, numPuts] at h3 ⊢
          omega
      · have hl : l.length < rb.len := h.2.2.2.1
        have hfull : l.length = rb.len - 1 := by omega
        rw [runQueue, queue_put_full mb sz h hfull] at hrun
        simp at hrun
    | get =>
      cases l with
      | nil =>
        rw [runQueue, queue_get_empty h] at hrun
        simp at hrun
      | cons x l2 =>
        obtain ⟨hget, habs⟩ := queue_get_cons h
        rw [runQueue, hget] at hrun
        simp only [Option.some_bind] at hrun
        cases hrest : runQueue { rb with tail := (rb.tail + 1) % rb.len } ops with
        | none => rw [hrest] at hrun; simp at hrun
        | some q =>
          rw [hrest] at hrun
          simp at hrun
          have hres := ih _ l2 q.1 q.2 habs (by rw [hrest])
          obtain ⟨g1, g2, g3⟩ := hres
          refine ⟨?_, ?_, ?_⟩
          · rw [← hrun.2, g1]
            simp [putsOf, numGets]
          · rw [← hrun.1]
            simpa [putsOf, numGets] using g2
          · simp [numGets, numPuts] at g3 ⊢
            omega

/-- C1. Block Queue FIFO correctness. For every all-successful run of
`queue_put`/`queue_get` operations starting from the initial ring buffer
with `C + 1` physical slots (the static `ring_buf[BLOCK_COUNT + 1]`
array, so `C` usable slots): the returned items are exactly the first
`M` put items in put order (strict FIFO, so the Nth successful get
returns the pair given to the Nth successful put), the number of entries
still retrievable equals `N - M`, `M ≤ N`, and a further `queue_put`
succeeds exactly when fewer than `C` entries are stored. -/
theorem C1_block_queue_fifo (C : Nat) (ops : List QOp)
    (rb2 : RingBuf) (gots : List QueueItem)
    (h : runQueue (emptyRB C) ops = some (rb2, gots)) :
    gots = (putsOf ops).take (numGets ops) ∧
    rbCount rb2 = numPuts ops - numGets ops ∧
    numGets ops ≤ numPuts ops ∧
    rb2.len = C + 1 ∧
    (∀ mb sz, (queue_put rb2 mb sz).isSome ↔ numPuts ops - numGets ops < C) := by
  have hres := runQueue_abstracted ops (emptyRB C) [] rb2 gots (abstracted_emptyRB C) h
  obtain ⟨h1, h2, h3⟩ := hres
  simp only [List.nil_append, List.length_nil, Nat.zero_add] at h1 h2 h3
  have hcnt : rbCount rb2 = numPuts ops - numGets ops := by
    rw [abstracted_count h2, List.length_drop, putsOf_length]
  have hlen : rb2.len = C + 1 := by
    have hpres := runQueue_len ops (emptyRB C) rb2 gots h
    simpa [emptyRB] using hpres
  refine ⟨h1, hcnt, by omega, hlen, ?_⟩
  intro mb sz
  rw [queue_put_isSome mb sz h2, List.length_drop, putsOf_length, hlen]
  omega

/-! Driver state model. -/

/-- Stream states, mirroring `enum i2s_state`. -/
inductive I2sState where
  | NOT_READY
  | READY
  | RUNNING
  | STOPPING
  | ERROR
deriving DecidableEq

/-- Trigger commands, mirroring `enum i2s_trigger_cmd`. -/
inductive TriggerCmd where
  | START
  | STOP
  | DRAIN
  | DROP
  | PREPARE
deriving DecidableEq

/-- Stream direction (selects the per-direction start/disable/drop
routines that the C installs as function pointers). -/
inductive Dir where
  | rx
  | tx
deriving DecidableEq

/-- API direction argument, mirroring `enum i2s_dir`. -/
inductive I2sDir where
  | RX
  | TX
  | BOTH
deriving DecidableEq

/-- Peripheral transfer mode, mirroring the `LL_I2S_MODE_*` values
written by `LL_I2S_SetTransferMode` (with a reset value for "not yet
programmed"). -/
inductive TransferMode where
  | RESET
  | MASTER_RX
  | MASTER_TX
  | SLAVE_RX
  | SLAVE_TX
  | MASTER_FULL_DUPLEX
  | SLAVE_FULL_DUPLEX
deriving DecidableEq

/-- Runtime test used at the `rx_disable`/`tx_disable` labels:
`LL_I2S_GetTransferMode(...) == LL_I2S_MODE_{MASTER,SLAVE}_FULL_DUPLEX`. -/
def isFullDuplexMode : TransferMode → Bool
  | TransferMode.MASTER_FULL_DUPLEX => true
  | TransferMode.SLAVE_FULL_DUPLEX => true
  | _ => false

/-- Compile-time policy selection, one field per `#ifdef` of the source:
`CONFIG_I2S_STM32_RX_OVERRUN_DROP`, `CONFIG_I2S_STM32_TX_UNDERRUN_LAST_REPEAT`
and `CONFIG_I2S_STM32_FULL_DUPLEX`. -/
structure Policy where
  rxOverrunDrop : Bool
  txUnderrunLastRepeat : Bool
  fullDuplex : Bool
deriving DecidableEq

/-- The parts of `struct i2s_config` the core consumes. Bit tests on
`options`/`format` are pre-split into the Boolean fields the code
actually reads (`I2S_OPT_FRAME_CLK_SLAVE`, `I2S_OPT_BIT_CLK_SLAVE`,
`I2S_OPT_IO_SWAP`, `I2S_FMT_BIT_CLK_INV`); `data_format` is the value of
`format & I2S_FMT_DATA_FORMAT_MASK` (0..4 supported). -/
structure I2sConfig where
  word_size : Nat
  channels : Nat
  data_format : Nat
  bit_clk_inv : Bool
  frame_clk_slave : Bool
  bit_clk_slave : Bool
  io_swap : Bool
  frame_clk_freq : Nat
  block_size : Nat
  timeout : Nat
deriving DecidableEq

/-- The all-zero `struct i2s_config` written by
`memset(&stream->cfg, 0, sizeof(struct i2s_config))`. -/
def zeroConfig : I2sConfig :=
  { word_size := 0, channels := 0, data_format := 0, bit_clk_inv := false,
    frame_clk_slave := false, bit_clk_slave := false, io_swap := false,
    frame_clk_freq := 0, block_size := 0, timeout := 0 }

/-- One direction's stream, mirroring `struct stream`. The counting
semaphore is its count plus its fixed limit; the K_NO_WAIT memory slab
is the list of free block handles. -/
structure Stream where
  state : I2sState
  master : Bool
  mem_block : Option Nat
  mem_block_size : Nat
  last_block : Bool
  last_mem_block : Option Nat
  last_mem_block_size : Nat
  tx_underrun : Bool
  mem_block_queue : RingBuf
  sem_count : Nat
  sem_limit : Nat
  slab : List Nat
  cfg : I2sConfig
deriving DecidableEq

/-- Peripheral and DMA-engine state (the external collaborators):
enable bits written through the `LL_I2S_*` register interface, plus the
DMA channels' running state and current memory target. -/
structure HwState where
  i2sEnabled : Bool
  dmaReqRx : Bool
  dmaReqTx : Bool
  errItEnabled : Bool
  transferMode : TransferMode
  dmaRxRunning : Bool
  dmaTxRunning : Bool
  dmaRxTarget : Option Nat
  dmaTxTarget : Option Nat
  masterClock : Bool
  ioSwapped : Bool
  dataFormatReg : Nat
  standardReg : Nat
  polarityHigh : Bool
deriving DecidableEq

/-- Whole device: the two streams (`struct i2s_stm32_data`), the
hardware state, and the `active_dma_{rx,tx}_channel` registry entries
for this device's channels. -/
structure Dev where
  rx : Stream
  tx : Stream
  hw : HwState
  activeRx : Bool
  activeTx : Bool
deriving DecidableEq

/-- Error code `-EIO`. -/
def EIOcode : Int := -5

/-- Error code `-EINVAL`. -/
def EINVALcode : Int := -22

/-- Error code `-ENOMEM`. -/
def ENOMEMcode : Int := -12

/-- Error code `-EAGAIN` (semaphore wait timeout). -/
def EAGAINcode : Int := -11

/-- Error code `-ENOSYS`. -/
def ENOSYScode : Int := -88

/-- `k_mem_slab_alloc(..., K_NO_WAIT)`: take a free block or fail. -/
def slabAlloc (slab : List Nat) : Option (Nat × List Nat) :=
  match slab with
  | [] => none
  | b :: rest => some (b, rest)

/-- `k_mem_slab_free`: return a block to the slab (our model frees an
optional handle so the same definition serves fields that may be NULL). -/
def slabFree (slab : List Nat) (b : Option Nat) : List Nat :=
  match b with
  | none => slab
  | some x => x :: slab

/-- `k_sem_give`: increment the count, saturating at the limit. -/
def semGive (s : Stream) : Stream :=
  { s with sem_count := min (s.sem_count + 1) s.sem_limit }

/-- `k_sem_give` iterated `n` times (the loop in `tx_queue_drop`). -/
def semGiveN (count limit : Nat) : Nat → Nat
  | 0 => count
  | n + 1 => semGiveN (min (count + 1) limit) limit n

/-- `k_sem_reset`. -/
def semReset (s : Stream) : Stream :=
  { s with sem_count := 0 }

/-- Projections/updates for the per-direction stream of a device. -/
def getStream (d : Dev) : Dir → Stream
  | Dir.rx => d.rx
  | Dir.tx => d.tx

/-- Replace the per-direction stream of a device. -/
def setStream (d : Dev) : Dir → Stream → Dev
  | Dir.rx, s => { d with rx := s }
  | Dir.tx, s => { d with tx := s }

/-- Set the RX stream state. -/
def setRxState (d : Dev) (st : I2sState) : Dev :=
  { d with rx := { d.rx with state := st } }

/-- Set the TX stream state. -/
def setTxState (d : Dev) (st : I2sState) : Dev :=
  { d with tx := { d.tx with state := st } }

/-! Queue draining (`rx_queue_drop` / `tx_queue_drop` loops). -/

/-- The `while (queue_get(...) == 0)` loop, with fuel: the physical ring
length always bounds the number of stored entries. Returns the drained
ring buffer and the items removed, in removal order. -/
def drainLoop : Nat → RingBuf → List QueueItem → RingBuf × List QueueItem
  | 0, rb, acc => (rb, acc.reverse)
  | fuel + 1, rb, acc =>
    match queue_get rb with
    | none => (rb, acc.reverse)
    | some (rb2, it) => drainLoop fuel rb2 (it :: acc)

/-- Drain a ring buffer completely. -/
def queueDrain (rb : RingBuf) : RingBuf × List QueueItem :=
  drainLoop rb.len rb []

theorem drainLoop_spec :
    ∀ (fuel : Nat) (rb : RingBuf) (l acc : List QueueItem),
      abstracted rb l → l.length ≤ fuel →
      (drainLoop fuel rb acc).2 = acc.reverse ++ l ∧
      abstracted (drainLoop fuel rb acc).1 [] := by
  intro fuel
  induction fuel with
  | zero =>
    intro rb l acc h hle
    have hnil : l = [] := List.length_eq_zero.1 (by omega)
    subst hnil
    simpa [drainLoop] using h
  | succ fuel ih =>
    intro rb l acc h hle
    cases l with
    | nil =>
      rw [drainLoop, queue_get_empty h]
      simpa using h
    | cons x l2 =>
      obtain ⟨hget, habs⟩ := queue_get_cons h
      rw [drainLoop, hget]
      have hres := ih _ l2 (x :: acc) habs (by simp at hle; omega)
      refine ⟨?_, hres.2⟩
      rw [hres.1]
      simp

theorem queueDrain_spec {rb : RingBuf} {l : List QueueItem}
    (h : abstracted rb l) :
    (queueDrain rb).2 = l ∧ abstracted (queueDrain rb).1 [] := by
  have hle : l.length ≤ rb.len := by
    have := h.2.2.2.1
    omega
  have hres := drainLoop_spec rb.len rb l [] h hle
  simpa [queueDrain] using hres

/-- `rx_queue_drop`: free every queued block back to the slab, then
`k_sem_reset`. -/
def rx_queue_drop (s : Stream) : Stream :=
  let p := queueDrain s.mem_block_queue
  { s with mem_block_queue := p.1,
           slab := p.2.foldl (fun sl it => it.mem_block :: sl) s.slab,
           sem_count := 0 }

/-- `tx_queue_drop`: free every queued block back to the slab, under the
last-repeat policy also free the cached last block (the C frees it but
leaves the field dangling), then `k_sem_give` once per freed queue
entry. -/
def tx_queue_drop (pol : Policy) (s : Stream) : Stream :=
  let p := queueDrain s.mem_block_queue
  let n := p.2.length
  let sl := p.2.foldl (fun sl it => it.mem_block :: sl) s.slab
  let sl := if pol.txUnderrunLastRepeat then slabFree sl s.last_mem_block else sl
  { s with mem_block_queue := p.1, slab := sl,
           sem_count := semGiveN s.sem_count s.sem_limit n }

/-- Per-direction `stream->queue_drop` dispatch. -/
def queue_drop_of (pol : Policy) : Dir → Dev → Dev
  | Dir.rx => fun d => { d with rx := rx_queue_drop d.rx }
  | Dir.tx => fun d => { d with tx := tx_queue_drop pol d.tx }

/-- `full_duplex_queue_drop`: drop both directions' queues. -/
def full_duplex_queue_drop (pol : Policy) (d : Dev) : Dev :=
  { d with rx := rx_queue_drop d.rx, tx := tx_queue_drop pol d.tx }

/-! Stream disable routines. -/

/-- `rx_stream_disable`: disable RX DMA request and error interrupts,
stop the DMA channel, free the in-flight block if any, disable the
peripheral, clear the channel registry entry. -/
def rx_stream_disable (d : Dev) : Dev :=
  let s := d.rx
  let s :=
    match s.mem_block with
    | some b => { s with slab := b :: s.slab, mem_block := none }
    | none => s
  { d with rx := s,
           hw := { d.hw with dmaReqRx := false, errItEnabled := false,
                             dmaRxRunning := false, i2sEnabled := false },
           activeRx := false }

/-- `tx_stream_disable`: disable TX DMA request and error interrupts,
stop the DMA channel, free the in-flight block if any, under the
last-repeat policy free the cached last block, disable the peripheral,
clear the channel registry entry. -/
def tx_stream_disable (pol : Policy) (d : Dev) : Dev :=
  let s := d.tx
  let s :=
    match s.mem_block with
    | some b => { s with slab := b :: s.slab, mem_block := none }
    | none => s
  let s := if pol.txUnderrunLastRepeat then { s with slab := slabFree s.slab s.last_mem_block } else s
  { d with tx := s,
           hw := { d.hw with dmaReqTx := false, errItEnabled := false,
                             dmaTxRunning := false, i2sEnabled := false },
           activeTx := false }

/-- `full_duplex_stream_disable`: disable both directions and the shared
peripheral together. -/
def full_duplex_stream_disable (pol : Policy) (d : Dev) : Dev :=
  let srx := d.rx
  let srx :=
    match srx.mem_block with
    | some b => { srx with slab := b :: srx.slab, mem_block := none }
    | none => srx
  let stx := d.tx
  let stx :=
    match stx.mem_block with
    | some b => { stx with slab := b :: stx.slab, mem_block := none }
    | none => stx
  let stx := if pol.txUnderrunLastRepeat then { stx with slab := slabFree stx.slab stx.last_mem_block } else stx
  { d with rx := srx, tx := stx,
           hw := { d.hw with dmaReqRx := false, dmaReqTx := false,
                             errItEnabled := false, dmaRxRunning := false,
                             dmaTxRunning := false, i2sEnabled := false },
           activeRx := false, activeTx := false }

/-- Per-direction `stream->stream_disable` dispatch. -/
def stream_disable_of (pol : Policy) : Dir → Dev → Dev
  | Dir.rx => fun d => rx_stream_disable d
  | Dir.tx => fun d => tx_stream_disable pol d

/-! Stream start routines. External DMA-engine call results
(`dma_config`/`dma_start`/`dma_reload`) are threaded in as `Int`
parameters; `0` means success, a negative value the propagated error. -/

/-- The effect of `start_dma`/`reload_dma` on an RX channel: on success
the channel runs, targeting the given memory block. -/
def armDmaRx (extRet : Int) (block : Option Nat) (hw : HwState) : Int × HwState :=
  if extRet < 0 then (extRet, hw)
  else (0, { hw with dmaRxRunning := true, dmaRxTarget := block })

/-- The effect of `start_dma`/`reload_dma` on a TX channel. -/
def armDmaTx (extRet : Int) (block : Option Nat) (hw : HwState) : Int × HwState :=
  if extRet < 0 then (extRet, hw)
  else (0, { hw with dmaTxRunning := true, dmaTxTarget := block })

/-- `rx_stream_start_dma`: allocate the first receive block, program the
transfer mode, register the channel, start the DMA channel. -/
def rx_stream_start_dma (dmaRet : Int) (full_duplex : Bool) (d : Dev) : Int × Dev :=
  match slabAlloc d.rx.slab with
  | none => (ENOMEMcode, d)
  | some (b, rest) =>
    let s := { d.rx with slab := rest, mem_block := some b }
    let mode :=
      if s.master then
        (if full_duplex then TransferMode.MASTER_FULL_DUPLEX else TransferMode.MASTER_RX)
      else
        (if full_duplex then TransferMode.SLAVE_FULL_DUPLEX else TransferMode.SLAVE_RX)
    let d := { d with rx := s, hw := { d.hw with transferMode := mode }, activeRx := true }
    match armDmaRx dmaRet (some b) d.hw with
    | (ret, hw) => (ret, { d with hw := hw })

/-- Tail of `tx_stream_start_dma` after the block to send is known:
conditional writer-semaphore signal, transfer mode, channel registry,
DMA start. `giveSem` is false exactly when the last-repeat policy is
active and `tx_underrun` is set. -/
def tx_stream_start_dma_arm (dmaRet : Int) (full_duplex giveSem : Bool) (d : Dev) : Int × Dev :=
  let s := if giveSem then semGive d.tx else d.tx
  let mode :=
    if s.master then
      (if full_duplex then TransferMode.MASTER_FULL_DUPLEX else TransferMode.MASTER_TX)
    else
      (if full_duplex then TransferMode.SLAVE_FULL_DUPLEX else TransferMode.SLAVE_TX)
  let d := { d with tx := s, hw := { d.hw with transferMode := mode }, activeTx := true }
  match armDmaTx dmaRet d.tx.mem_block d.hw with
  | (ret, hw) => (ret, { d with hw := hw })

/-- `tx_stream_start_dma`: under the last-repeat policy first allocate
and zero the cached underrun block; fetch the first block from the TX
queue (falling back to the cached block on underrun under that policy);
then arm the DMA channel. -/
def tx_stream_start_dma (pol : Policy) (dmaRet : Int) (full_duplex : Bool) (d : Dev) : Int × Dev :=
  let allocRes : Option Stream :=
    if pol.txUnderrunLastRepeat then
      match slabAlloc d.tx.slab with
      | none => none
      | some (b, rest) =>
        some { d.tx with slab := rest, last_mem_block := some b,
                         last_mem_block_size := d.tx.cfg.block_size,
                         tx_underrun := false }
    else some d.tx
  match allocRes with
  | none => (ENOMEMcode, d)
  | some s1 =>
    match queue_get s1.mem_block_queue with
    | none =>
      if pol.txUnderrunLastRepeat then
        let s2 := { s1 with mem_block := s1.last_mem_block,
                            mem_block_size := s1.last_mem_block_size,
                            tx_underrun := true }
        tx_stream_start_dma_arm dmaRet full_duplex false { d with tx := s2 }
      else (ENOMEMcode, d)
    | some (rb2, it) =>
      let s2 := { s1 with mem_block_queue := rb2, mem_block := some it.mem_block,
                          mem_block_size := it.size }
      tx_stream_start_dma_arm dmaRet full_duplex true { d with tx := s2 }

/-- `rx_stream_start`: start the RX DMA, then enable the RX DMA request,
the error interrupts and the peripheral. -/
def rx_stream_start (dmaRet : Int) (d : Dev) : Int × Dev :=
  match rx_stream_start_dma dmaRet false d with
  | (ret, d2) =>
    if ret < 0 then (ret, d2)
    else (0, { d2 with hw := { d2.hw with dmaReqRx := true, errItEnabled := true,
                                          i2sEnabled := true } })

/-- `tx_stream_start`: start the TX DMA, then enable the TX DMA request,
the error interrupts and the peripheral. -/
def tx_stream_start (pol : Policy) (dmaRet : Int) (d : Dev) : Int × Dev :=
  match tx_stream_start_dma pol dmaRet false d with
  | (ret, d2) =>
    if ret < 0 then (ret, d2)
    else (0, { d2 with hw := { d2.hw with dmaReqTx := true, errItEnabled := true,
                                          i2sEnabled := true } })

/-- `full_duplex_stream_start`: start both DMA directions, then enable
both DMA requests, the error interrupts and the peripheral. -/
def full_duplex_stream_start (pol : Policy) (dmaRetRx dmaRetTx : Int) (d : Dev) : Int × Dev :=
  match rx_stream_start_dma dmaRetRx true d with
  | (r1, d1) =>
    if r1 < 0 then (r1, d1)
    else
      match tx_stream_start_dma pol dmaRetTx true d1 with
      | (r2, d2) =>
        if r2 < 0 then (r2, d2)
        else (0, { d2 with hw := { d2.hw with dmaReqRx := true, dmaReqTx := true,
                                              errItEnabled := true, i2sEnabled := true } })

/-- Per-direction `stream->stream_start` dispatch. -/
def stream_start_of (pol : Policy) (dmaRet : Int) : Dir → Dev → Int × Dev
  | Dir.rx => rx_stream_start dmaRet
  | Dir.tx => tx_stream_start pol dmaRet

/-! Trigger state machine. -/

/-- `i2s_stm32_trigger_half_duplex`. -/
def i2s_stm32_trigger_half_duplex (pol : Policy) (dmaRet : Int) (dir : Dir)
    (cmd : TriggerCmd) (d : Dev) : Int × Dev :=
  let s := getStream d dir
  match cmd with
  | TriggerCmd.START =>
    if s.state ≠ I2sState.READY then (EIOcode, d)
    else
      match stream_start_of pol dmaRet dir d with
      | (ret, d2) =>
        if ret < 0 then (ret, d2)
        else
          let s2 := getStream d2 dir
          (0, setStream d2 dir { s2 with state := I2sState.RUNNING, last_block := false })
  | TriggerCmd.STOP =>
    if s.state ≠ I2sState.RUNNING then (EIOcode, d)
    else
      let d2 := queue_drop_of pol dir (stream_disable_of pol dir d)
      let s2 := getStream d2 dir
      (0, setStream d2 dir { s2 with state := I2sState.READY, last_block := true })
  | TriggerCmd.DRAIN =>
    if s.state ≠ I2sState.RUNNING then (EIOcode, d)
    else
      let d2 := queue_drop_of pol dir (stream_disable_of pol dir d)
      let s2 := getStream d2 dir
      (0, setStream d2 dir { s2 with state := I2sState.READY })
  | TriggerCmd.DROP =>
    if s.state = I2sState.NOT_READY then (EIOcode, d)
    else
      let d2 := queue_drop_of pol dir (stream_disable_of pol dir d)
      let s2 := getStream d2 dir
      (0, setStream d2 dir { s2 with state := I2sState.READY })
  | TriggerCmd.PREPARE =>
    if s.state ≠ I2sState.ERROR then (EIOcode, d)
    else
      let d2 := setStream d dir { s with state := I2sState.READY }
      (0, queue_drop_of pol dir d2)

/-- `i2s_stm32_trigger_full_duplex`. Note the DROP arm: the source
checks `stream->state != I2S_STATE_NOT_READY` (the opposite of the
half-duplex DROP test) for both streams before acting. -/
def i2s_stm32_trigger_full_duplex (pol : Policy) (dmaRetRx dmaRetTx : Int)
    (cmd : TriggerCmd) (d : Dev) : Int × Dev :=
  match cmd with
  | TriggerCmd.START =>
    if d.rx.state ≠ I2sState.READY then (EIOcode, d)
    else if d.tx.state ≠ I2sState.READY then (EIOcode, d)
    else
      match full_duplex_stream_start pol dmaRetRx dmaRetTx d with
      | (ret, d2) =>
        if ret < 0 then (ret, d2)
        else
          (0, { d2 with rx := { d2.rx with state := I2sState.RUNNING, last_block := false },
                        tx := { d2.tx with state := I2sState.RUNNING, last_block := false } })
  | TriggerCmd.STOP =>
    if d.rx.state ≠ I2sState.RUNNING then (EIOcode, d)
    else if d.tx.state ≠ I2sState.RUNNING then (EIOcode, d)
    else
      let d2 := full_duplex_queue_drop pol (full_duplex_stream_disable pol d)
      (0, { d2 with rx := { d2.rx with state := I2sState.READY, last_block := true },
                    tx := { d2.tx with state := I2sState.READY, last_block := true } })
  | TriggerCmd.DRAIN =>
    if d.rx.state ≠ I2sState.RUNNING then (EIOcode, d)
    else if d.tx.state ≠ I2sState.RUNNING then (EIOcode, d)
    else
      let d2 := full_duplex_queue_drop pol (full_duplex_stream_disable pol d)
      (0, { d2 with rx := { d2.rx with state := I2sState.READY },
                    tx := { d2.tx with state := I2sState.READY } })
  | TriggerCmd.DROP =>
    if d.rx.state ≠ I2sState.NOT_READY then (EIOcode, d)
    else if d.tx.state ≠ I2sState.NOT_READY then (EIOcode, d)
    else
      let d2 := full_duplex_queue_drop pol (full_duplex_stream_disable pol d)
      (0, { d2 with rx := { d2.rx with state := I2sState.READY },
                    tx := { d2.tx with state := I2sState.READY } })
  | TriggerCmd.PREPARE =>
    if d.rx.state ≠ I2sState.ERROR then (EIOcode, d)
    else if d.tx.state ≠ I2sState.ERROR then (EIOcode, d)
    else
      let d2 := { d with rx := { d.rx with state := I2sState.READY },
                         tx := { d.tx with state := I2sState.READY } }
      (0, full_duplex_queue_drop pol d2)

/-! Configuration. -/

/-- `i2s_stm32_configure_stream`. -/
def i2s_stm32_configure_stream (pol : Policy) (dir : Dir) (d : Dev)
    (i2s_cfg : I2sConfig) : Int × Dev :=
  let s := getStream d dir
  if s.state ≠ I2sState.NOT_READY ∧ s.state ≠ I2sState.READY then (EINVALcode, d)
  else
    let s := { s with master := !(i2s_cfg.frame_clk_slave || i2s_cfg.bit_clk_slave) }
    let d := setStream d dir s
    if i2s_cfg.frame_clk_freq = 0 then
      let d := queue_drop_of pol dir d
      let s2 := getStream d dir
      (0, setStream d dir { s2 with cfg := zeroConfig, state := I2sState.NOT_READY })
    else
      (0, setStream d dir
            { s with cfg := i2s_cfg, tx_underrun := false, last_mem_block := none,
                     last_mem_block_size := 0, mem_block_size := 0 })

/-- `i2s_stm32_configure`. The clock-divider computation
(`i2s_stm32_set_clock`) is an out-of-scope external collaborator and is
modelled as succeeding without observable effect on the core state. -/
def i2s_stm32_configure (pol : Policy) (d : Dev) (dir : I2sDir)
    (i2s_cfg : I2sConfig) : Int × Dev :=
  let step1 : Int × Dev :=
    match dir with
    | I2sDir.RX => i2s_stm32_configure_stream pol Dir.rx d i2s_cfg
    | I2sDir.TX => i2s_stm32_configure_stream pol Dir.tx d i2s_cfg
    | I2sDir.BOTH =>
      if pol.fullDuplex then
        match i2s_stm32_configure_stream pol Dir.rx d i2s_cfg with
        | (r, d1) =>
          if r ≠ 0 then (r, d1)
          else i2s_stm32_configure_stream pol Dir.tx d1 i2s_cfg
      else (ENOSYScode, d)
  match step1 with
  | (r, d1) =>
    if r ≠ 0 then (r, d1)
    else
      let hw := d1.hw
      let hw :=
        if i2s_cfg.frame_clk_slave || i2s_cfg.bit_clk_slave then
          { hw with masterClock := true }
        else
          { hw with masterClock := false }
      let hw := if i2s_cfg.io_swap then { hw with ioSwapped := true } else hw
      if i2s_cfg.word_size = 16 ∨ i2s_cfg.word_size = 24 ∨ i2s_cfg.word_size = 32 then
        let hw := { hw with dataFormatReg := i2s_cfg.word_size }
        if i2s_cfg.data_format ≤ 4 then
          let hw := { hw with standardReg := i2s_cfg.data_format,
                              polarityHigh := i2s_cfg.bit_clk_inv }
          let d2 := { d1 with hw := hw }
          let d2 :=
            if dir = I2sDir.RX ∨ dir = I2sDir.BOTH then setRxState d2 I2sState.READY else d2
          let d2 :=
            if dir = I2sDir.TX ∨ dir = I2sDir.BOTH then setTxState d2 I2sState.READY else d2
          (0, d2)
        else (EINVALcode, { d1 with hw := hw })
      else (EINVALcode, { d1 with hw := hw })

/-! Application write path. -/

/-- `i2s_stm32_write`: state check, `k_sem_take` with the configured
timeout (modelled: succeeds exactly when the count is positive,
otherwise the wait would time out), then `queue_put`. -/
def i2s_stm32_write (d : Dev) (mem_block : Nat) (size : Nat) : Int × Dev :=
  if d.tx.state ≠ I2sState.RUNNING ∧ d.tx.state ≠ I2sState.READY then (EIOcode, d)
  else if d.tx.sem_count = 0 then (EAGAINcode, d)
  else
    let s := { d.tx with sem_count := d.tx.sem_count - 1 }
    match queue_put s.mem_block_queue mem_block size with
    | none => (ENOMEMcode, { d with tx := s })
    | some rb2 => (0, { d with tx := { s with mem_block_queue := rb2 } })

/-! Completion handlers (interrupt context). -/

/-- The `rx_disable` label of `dma_rx_callback`: under the full-duplex
build, if the peripheral is in a full-duplex transfer mode, force the TX
stream to ERROR and disable both streams; otherwise disable RX only. -/
def rx_disable_route (pol : Policy) (d : Dev) : Dev :=
  if pol.fullDuplex && isFullDuplexMode d.hw.transferMode then
    full_duplex_stream_disable pol (setTxState d I2sState.ERROR)
  else rx_stream_disable d

/-- The `tx_disable` label of `dma_tx_callback` (mirror image). -/
def tx_disable_route (pol : Policy) (d : Dev) : Dev :=
  if pol.fullDuplex && isFullDuplexMode d.hw.transferMode then
    full_duplex_stream_disable pol (setRxState d I2sState.ERROR)
  else tx_stream_disable pol d

/-- `dma_rx_callback`. `status` is the DMA-reported completion status,
`reloadRet` the result of the `reload_dma` call on this invocation. -/
def dma_rx_callback (pol : Policy) (status reloadRet : Int) (d : Dev) : Dev :=
  if status ≠ 0 then
    rx_disable_route pol (setRxState d I2sState.ERROR)
  else
    match d.rx.mem_block with
    | none => d
    | some mblk_tmp =>
      if d.rx.state = I2sState.ERROR then rx_disable_route pol d
      else
        match slabAlloc d.rx.slab with
        | none => rx_disable_route pol (setRxState d I2sState.ERROR)
        | some (b, rest) =>
          let d := { d with rx := { d.rx with mem_block := some b, slab := rest } }
          if reloadRet < 0 then rx_disable_route pol d
          else
            let d := { d with hw := { d.hw with dmaRxRunning := true, dmaRxTarget := some b } }
            match queue_put d.rx.mem_block_queue mblk_tmp d.rx.cfg.block_size with
            | none =>
              if pol.rxOverrunDrop then
                let d := { d with rx := { d.rx with slab := mblk_tmp :: d.rx.slab } }
                if d.rx.state = I2sState.STOPPING then
                  rx_disable_route pol (setRxState d I2sState.READY)
                else d
              else
                rx_disable_route pol (setRxState d I2sState.ERROR)
            | some rb2 =>
              let d := { d with rx := semGive { d.rx with mem_block_queue := rb2 } }
              if d.rx.state = I2sState.STOPPING then
                rx_disable_route pol (setRxState d I2sState.READY)
              else d

/-- Tail of `dma_tx_callback`: reload the DMA with the chosen next block,
or take the `tx_disable` exit when the reload fails. -/
def tx_arm_or_disable (pol : Policy) (reloadRet : Int) (d : Dev) : Dev :=
  if reloadRet < 0 then tx_disable_route pol d
  else { d with hw := { d.hw with dmaTxRunning := true, dmaTxTarget := d.tx.mem_block } }

/-- `dma_tx_callback`. -/
def dma_tx_callback (pol : Policy) (status reloadRet : Int) (d : Dev) : Dev :=
  if status ≠ 0 then
    tx_disable_route pol (setTxState d I2sState.ERROR)
  else
    match d.tx.mem_block with
    | none => d
    | some cur =>
      let s := d.tx
      let s :=
        if pol.txUnderrunLastRepeat then
          if s.tx_underrun = false then
            { s with slab := slabFree s.slab s.last_mem_block,
                     last_mem_block := some cur,
                     last_mem_block_size := s.mem_block_size }
          else s
        else { s with slab := cur :: s.slab }
      let s := { s with mem_block := none, mem_block_size := 0 }
      let d := { d with tx := s }
      if s.state = I2sState.ERROR then tx_disable_route pol d
      else if s.last_block then tx_disable_route pol (setTxState d I2sState.READY)
      else
        match queue_get s.mem_block_queue with
        | none =>
          if pol.txUnderrunLastRepeat then
            let s2 := { d.tx with mem_block := d.tx.last_mem_block,
                                  mem_block_size := d.tx.last_mem_block_size,
                                  tx_underrun := true }
            tx_arm_or_disable pol reloadRet { d with tx := s2 }
          else
            if d.tx.state = I2sState.STOPPING then
              tx_disable_route pol (setTxState d I2sState.READY)
            else
              tx_disable_route pol (setTxState d I2sState.ERROR)
        | some (rb2, it) =>
          let s2 := { d.tx with mem_block_queue := rb2,
                                mem_block := some it.mem_block,
                                mem_block_size := it.size }
          let s2 := if pol.txUnderrunLastRepeat then { s2 with tx_underrun := false } else s2
          let s2 := if pol.txUnderrunLastRepeat && s2.tx_underrun then s2 else semGive s2
          tx_arm_or_disable pol reloadRet { d with tx := s2 }

/-- `i2s_stm32_isr` (peripheral error interrupt): forces the RX stream
to ERROR, under the full-duplex build also the TX stream when the
peripheral is in a full-duplex mode, clears the error flags and counts
the event. It performs no hardware disable itself. -/
def i2s_stm32_isr (pol : Policy) (d : Dev) : Dev :=
  let d := setRxState d I2sState.ERROR
  if pol.fullDuplex && isFullDuplexMode d.hw.transferMode then
    setTxState d I2sState.ERROR
  else d

/-! Observable projections and helper predicates for the claims. -/

/-- Everything externally observable about a stream except the
`last_block` latch (which is consulted only by a completion handler of a
stream whose hardware has been disabled, and is reset by START). -/
structure StreamObs where
  state : I2sState
  master : Bool
  mem_block : Option Nat
  mem_block_size : Nat
  last_mem_block : Option Nat
  last_mem_block_size : Nat
  tx_underrun : Bool
  mem_block_queue : RingBuf
  sem_count : Nat
  sem_limit : Nat
  slab : List Nat
  cfg : I2sConfig
deriving DecidableEq

/-- Project a stream onto its observable part. -/
def Stream.obs (s : Stream) : StreamObs :=
  { state := s.state, master := s.master, mem_block := s.mem_block,
    mem_block_size := s.mem_block_size, last_mem_block := s.last_mem_block,
    last_mem_block_size := s.last_mem_block_size, tx_underrun := s.tx_underrun,
    mem_block_queue := s.mem_block_queue, sem_count := s.sem_count,
    sem_limit := s.sem_limit, slab := s.slab, cfg := s.cfg }

/-- Observable part of a whole device. -/
structure DevObs where
  rx : StreamObs
  tx : StreamObs
  hw : HwState
  activeRx : Bool
  activeTx : Bool
deriving DecidableEq

/-- Project a device onto its observable part. -/
def devObs (d : Dev) : DevObs :=
  { rx := d.rx.obs, tx := d.tx.obs, hw := d.hw,
    activeRx := d.activeRx, activeTx := d.activeTx }

/-- The transfer engine and peripheral path of one direction are shut
down: DMA request off, DMA channel stopped, peripheral and error
interrupts disabled. -/
def engineDisabled (hw : HwState) : Dir → Prop
  | Dir.rx => hw.dmaReqRx = false ∧ hw.dmaRxRunning = false ∧
              hw.i2sEnabled = false ∧ hw.errItEnabled = false
  | Dir.tx => hw.dmaReqTx = false ∧ hw.dmaTxRunning = false ∧
              hw.i2sEnabled = false ∧ hw.errItEnabled = false

/-- Both directions' engines and the shared peripheral are shut down. -/
def bothDisabled (hw : HwState) : Prop :=
  hw.dmaReqRx = false ∧ hw.dmaReqTx = false ∧ hw.dmaRxRunning = false ∧
  hw.dmaTxRunning = false ∧ hw.i2sEnabled = false ∧ hw.errItEnabled = false

instance (hw : HwState) (dir : Dir) : Decidable (engineDisabled hw dir) := by
  cases dir <;> (unfold engineDisabled; infer_instance)

instance (hw : HwState) : Decidable (bothDisabled hw) := by
  unfold bothDisabled
  infer_instance

/-! Concrete sample states for the witnesses. -/

/-- A representative valid configuration. -/
def sampleCfg : I2sConfig :=
  { word_size := 16, channels := 2, data_format := 0, bit_clk_inv := false,
    frame_clk_slave := false, bit_clk_slave := false, io_swap := false,
    frame_clk_freq := 48000, block_size := 4, timeout := 10 }

/-- A representative stream in a given state, with three free blocks and
an empty two-slot queue. -/
def sampleStream (st : I2sState) : Stream :=
  { state := st, master := true, mem_block := none, mem_block_size := 0,
    last_block := false, last_mem_block := none, last_mem_block_size := 0,
    tx_underrun := false, mem_block_queue := emptyRB 2, sem_count := 0,
    sem_limit := 3, slab := [100, 101, 102], cfg := sampleCfg }

/-- Quiescent hardware. -/
def sampleHw : HwState :=
  { i2sEnabled := false, dmaReqRx := false, dmaReqTx := false,
    errItEnabled := false, transferMode := TransferMode.RESET,
    dmaRxRunning := false, dmaTxRunning := false, dmaRxTarget := none,
    dmaTxTarget := none, masterClock := false, ioSwapped := false,
    dataFormatReg := 0, standardReg := 0, polarityHigh := false }

/-- A device with the two streams in the given states. -/
def sampleDev (rxSt txSt : I2sState) : Dev :=
  { rx := sampleStream rxSt, tx := sampleStream txSt, hw := sampleHw,
    activeRx := false, activeTx := false }

/-- Default policy: block mode on both directions, half-duplex build. -/
def polBlock : Policy := { rxOverrunDrop := false, txUnderrunLastRepeat := false, fullDuplex := false }

/-- RX overrun-drop policy. -/
def polDrop : Policy := { rxOverrunDrop := true, txUnderrunLastRepeat := false, fullDuplex := false }

/-- TX last-repeat policy. -/
def polRepeat : Policy := { rxOverrunDrop := false, txUnderrunLastRepeat := true, fullDuplex := false }

/-- Full-duplex build with default queue policies. -/
def polFD : Policy := { rxOverrunDrop := false, txUnderrunLastRepeat := false, fullDuplex := true }

/-! C2: START legality. -/

/-- C2. The START trigger succeeds only from READY: for every stream
whose state is not READY (in particular a RUNNING stream after a first
successful START with no intervening STOP/DROP), START returns `-EIO`
and returns the device completely unchanged (state, queue contents and
active block included). -/
theorem C2_start_only_from_ready (pol : Policy) (dmaRet : Int) (dir : Dir) (d : Dev)
    (h : (getStream d dir).state ≠ I2sState.READY) :
    i2s_stm32_trigger_half_duplex pol dmaRet dir TriggerCmd.START d = (EIOcode, d) := by
  unfold i2s_stm32_trigger_half_duplex
  simp [h]

/-- Witness for C2 at a concrete RUNNING TX stream. -/
theorem C2_witness :
    (getStream (sampleDev I2sState.READY I2sState.RUNNING) Dir.tx).state ≠ I2sState.READY ∧
    i2s_stm32_trigger_half_duplex polBlock 0 Dir.tx TriggerCmd.START
      (sampleDev I2sState.READY I2sState.RUNNING) =
      (EIOcode, sampleDev I2sState.READY I2sState.RUNNING) :=
  ⟨by decide, C2_start_only_from_ready polBlock 0 Dir.tx
    (sampleDev I2sState.READY I2sState.RUNNING) (by decide)⟩

/-! C3: the DROP trigger. The half-duplex path accepts DROP from any
state except NOT_READY; the full-duplex path instead REJECTS DROP
whenever either stream is not NOT_READY — the comparison is inverted
with respect to the half-duplex path, so a full-duplex DROP from
READY or RUNNING fails with `-EIO`. -/

/-- C3 evidence. At a device with both streams RUNNING in the
full-duplex build, the full-duplex DROP trigger returns `-EIO` and does
nothing, while the half-duplex DROP trigger on the same state succeeds
and leaves the stream READY — the full-duplex code inverts the
NOT_READY test. -/
theorem C3_full_duplex_drop_rejected :
    i2s_stm32_trigger_full_duplex polFD 0 0 TriggerCmd.DROP
      (sampleDev I2sState.RUNNING I2sState.RUNNING) =
      (EIOcode, sampleDev I2sState.RUNNING I2sState.RUNNING) ∧
    (i2s_stm32_trigger_half_duplex polFD 0 Dir.rx TriggerCmd.DROP
      (sampleDev I2sState.RUNNING I2sState.RUNNING)).1 = 0 ∧
    ((i2s_stm32_trigger_half_duplex polFD 0 Dir.rx TriggerCmd.DROP
      (sampleDev I2sState.RUNNING I2sState.RUNNING)).2.rx.state = I2sState.READY) := by
  refine ⟨by decide, by decide, by decide⟩

theorem rx_stream_disable_rx (d : Dev) :
    (rx_stream_disable d).rx.mem_block_queue = d.rx.mem_block_queue ∧
    (rx_stream_disable d).rx.mem_block = none ∧
    (rx_stream_disable d).rx.state = d.rx.state ∧
    (rx_stream_disable d).rx.sem_count = d.rx.sem_count ∧
    (rx_stream_disable d).tx = d.tx ∧
    engineDisabled (rx_stream_disable d).hw Dir.rx := by
  unfold rx_stream_disable
  cases h : d.rx.mem_block <;> simp [h, engineDisabled]

theorem tx_stream_disable_tx (pol : Policy) (d : Dev) :
    (tx_stream_disable pol d).tx.mem_block_queue = d.tx.mem_block_queue ∧
    (tx_stream_disable pol d).tx.mem_block = none ∧
    (tx_stream_disable pol d).tx.state = d.tx.state ∧
    (tx_stream_disable pol d).tx.sem_count = d.tx.sem_count ∧
    (tx_stream_disable pol d).rx = d.rx ∧
    engineDisabled (tx_stream_disable pol d).hw Dir.tx := by
  unfold tx_stream_disable
  cases h : d.tx.mem_block <;> cases hp : pol.txUnderrunLastRepeat <;>
    simp [h, hp, engineDisabled]

/-- C3, half-duplex part (which the code does implement as claimed):
whenever the stream's state is not NOT_READY (READY, RUNNING, STOPPING
or ERROR), DROP succeeds, force-disables the hardware, discards all
queued blocks and leaves the state READY; from NOT_READY it fails with
`-EIO` and no side effect. -/
theorem C3_half_duplex_drop (pol : Policy) (dir : Dir) (d : Dev) (l : List QueueItem)
    (habs : abstracted (getStream d dir).mem_block_queue l) :
    (¬ (getStream d dir).state = I2sState.NOT_READY →
      (i2s_stm32_trigger_half_duplex pol 0 dir TriggerCmd.DROP d).1 = 0 ∧
      (getStream (i2s_stm32_trigger_half_duplex pol 0 dir TriggerCmd.DROP d).2 dir).state =
        I2sState.READY ∧
      abstracted
        (getStream (i2s_stm32_trigger_half_duplex pol 0 dir TriggerCmd.DROP d).2 dir).mem_block_queue
        [] ∧
      engineDisabled (i2s_stm32_trigger_half_duplex pol 0 dir TriggerCmd.DROP d).2.hw dir) ∧
    ((getStream d dir).state = I2sState.NOT_READY →
      i2s_stm32_trigger_half_duplex pol 0 dir TriggerCmd.DROP d = (EIOcode, d)) := by
  constructor
  · intro hst
    cases dir with
    | rx =>
      simp only [i2s_stm32_trigger_half_duplex, getStream] at hst ⊢
      rw [if_neg hst]
      simp only [setStream, queue_drop_of, stream_disable_of, rx_queue_drop, getStream]
      refine ⟨trivial, trivial, ?_, ?_⟩
      · rw [(rx_stream_disable_rx d).1]
        exact (queueDrain_spec habs).2
      · have hd := (rx_stream_disable_rx d).2.2.2.2.2
        simpa [engineDisabled] using hd
    | tx =>
      simp only [i2s_stm32_trigger_half_duplex, getStream] at hst ⊢
      rw [if_neg hst]
      simp only [setStream, queue_drop_of, stream_disable_of, tx_queue_drop, getStream]
      refine ⟨trivial, trivial, ?_, ?_⟩
      · rw [(tx_stream_disable_tx pol d).1]
        exact (queueDrain_spec habs).2
      · have hd := (tx_stream_disable_tx pol d).2.2.2.2.2
        simpa [engineDisabled] using hd
  · intro hst
    cases dir with
    | rx =>
      simp only [i2s_stm32_trigger_half_duplex, getStream] at hst ⊢
      rw [if_pos hst]
    | tx =>
      simp only [i2s_stm32_trigger_half_duplex, getStream] at hst ⊢
      rw [if_pos hst]

/-- Witness for the half-duplex DROP theorem at a concrete RUNNING RX
stream with an empty queue. -/
theorem C3_half_duplex_drop_witness :
    abstracted (getStream (sampleDev I2sState.RUNNING I2sState.READY) Dir.rx).mem_block_queue [] ∧
    (¬ (getStream (sampleDev I2sState.RUNNING I2sState.READY) Dir.rx).state = I2sState.NOT_READY →
      (i2s_stm32_trigger_half_duplex polBlock 0 Dir.rx TriggerCmd.DROP
        (sampleDev I2sState.RUNNING I2sState.READY)).1 = 0 ∧
      (getStream (i2s_stm32_trigger_half_duplex polBlock 0 Dir.rx TriggerCmd.DROP
        (sampleDev I2sState.RUNNING I2sState.READY)).2 Dir.rx).state = I2sState.READY ∧
      abstracted
        (getStream (i2s_stm32_trigger_half_duplex polBlock 0 Dir.rx TriggerCmd.DROP
          (sampleDev I2sState.RUNNING I2sState.READY)).2 Dir.rx).mem_block_queue [] ∧
      engineDisabled (i2s_stm32_trigger_half_duplex polBlock 0 Dir.rx TriggerCmd.DROP
        (sampleDev I2sState.RUNNING I2sState.READY)).2.hw Dir.rx) ∧
    ((getStream (sampleDev I2sState.RUNNING I2sState.READY) Dir.rx).state = I2sState.NOT_READY →
      i2s_stm32_trigger_half_duplex polBlock 0 Dir.rx TriggerCmd.DROP
        (sampleDev I2sState.RUNNING I2sState.READY) =
        (EIOcode, sampleDev I2sState.RUNNING I2sState.READY)) :=
  ⟨by decide,
   C3_half_duplex_drop polBlock Dir.rx (sampleDev I2sState.RUNNING I2sState.READY) [] (by decide)⟩

theorem full_duplex_stream_disable_spec (pol : Policy) (d : Dev) :
    (full_duplex_stream_disable pol d).rx.state = d.rx.state ∧
    (full_duplex_stream_disable pol d).tx.state = d.tx.state ∧
    (full_duplex_stream_disable pol d).rx.mem_block = none ∧
    (full_duplex_stream_disable pol d).tx.mem_block = none ∧
    (full_duplex_stream_disable pol d).rx.mem_block_queue = d.rx.mem_block_queue ∧
    (full_duplex_stream_disable pol d).tx.mem_block_queue = d.tx.mem_block_queue ∧
    (full_duplex_stream_disable pol d).rx.sem_count = d.rx.sem_count ∧
    (full_duplex_stream_disable pol d).tx.sem_count = d.tx.sem_count ∧
    bothDisabled (full_duplex_stream_disable pol d).hw := by
  unfold full_duplex_stream_disable
  cases h1 : d.rx.mem_block <;> cases h2 : d.tx.mem_block <;>
    cases hp : pol.txUnderrunLastRepeat <;> simp [h1, h2, hp, bothDisabled]

/-- C8. DRAIN and STOP produce identical observable side effects. From
RUNNING, both succeed, both immediately disable the transfer engine and
peripheral, both discard all queued blocks, and both leave the state
READY; the resulting devices agree on every observable component
(hardware state, both streams' state, queue, semaphore, slab, in-flight
block, channel registry) — they can differ only in the internal
`last_block` latch, which STOP sets. This holds for the half-duplex
trigger in either direction and for the full-duplex trigger. Neither
waits for pending blocks: the queued blocks are freed to the slab, not
delivered. -/
theorem C8_stop_drain_same_effects (pol : Policy) (d : Dev) :
    (∀ dir l, (getStream d dir).state = I2sState.RUNNING →
      abstracted (getStream d dir).mem_block_queue l →
      (i2s_stm32_trigger_half_duplex pol 0 dir TriggerCmd.STOP d).1 = 0 ∧
      (i2s_stm32_trigger_half_duplex pol 0 dir TriggerCmd.DRAIN d).1 = 0 ∧
      devObs (i2s_stm32_trigger_half_duplex pol 0 dir TriggerCmd.STOP d).2 =
        devObs (i2s_stm32_trigger_half_duplex pol 0 dir TriggerCmd.DRAIN d).2 ∧
      (getStream (i2s_stm32_trigger_half_duplex pol 0 dir TriggerCmd.STOP d).2 dir).state =
        I2sState.READY ∧
      abstracted
        (getStream (i2s_stm32_trigger_half_duplex pol 0 dir TriggerCmd.STOP d).2 dir).mem_block_queue
        [] ∧
      engineDisabled (i2s_stm32_trigger_half_duplex pol 0 dir TriggerCmd.STOP d).2.hw dir) ∧
    (∀ lrx ltx, d.rx.state = I2sState.RUNNING → d.tx.state = I2sState.RUNNING →
      abstracted d.rx.mem_block_queue lrx → abstracted d.tx.mem_block_queue ltx →
      (i2s_stm32_trigger_full_duplex pol 0 0 TriggerCmd.STOP d).1 = 0 ∧
      (i2s_stm32_trigger_full_duplex pol 0 0 TriggerCmd.DRAIN d).1 = 0 ∧
      devObs (i2s_stm32_trigger_full_duplex pol 0 0 TriggerCmd.STOP d).2 =
        devObs (i2s_stm32_trigger_full_duplex pol 0 0 TriggerCmd.DRAIN d).2 ∧
      (i2s_stm32_trigger_full_duplex pol 0 0 TriggerCmd.STOP d).2.rx.state = I2sState.READY ∧
      (i2s_stm32_trigger_full_duplex pol 0 0 TriggerCmd.STOP d).2.tx.state = I2sState.READY ∧
      abstracted (i2s_stm32_trigger_full_duplex pol 0 0 TriggerCmd.STOP d).2.rx.mem_block_queue [] ∧
      abstracted (i2s_stm32_trigger_full_duplex pol 0 0 TriggerCmd.STOP d).2.tx.mem_block_queue [] ∧
      bothDisabled (i2s_stm32_trigger_full_duplex pol 0 0 TriggerCmd.STOP d).2.hw) := by
  constructor
  · intro dir l hrun habs
    cases dir with
    | rx =>
      simp only [i2s_stm32_trigger_half_duplex, getStream] at hrun habs ⊢
      rw [if_neg (by simp [hrun]), if_neg (by simp [hrun])]
      simp only [setStream, queue_drop_of, stream_disable_of, rx_queue_drop, getStream,
                 devObs, Stream.obs]
      refine ⟨trivial, trivial, trivial, trivial, ?_, ?_⟩
      · rw [(rx_stream_disable_rx d).1]
        exact (queueDrain_spec habs).2
      · have hd := (rx_stream_disable_rx d).2.2.2.2.2
        simpa [engineDisabled] using hd
    | tx =>
      simp only [i2s_stm32_trigger_half_duplex, getStream] at hrun habs ⊢
      rw [if_neg (by simp [hrun]), if_neg (by simp [hrun])]
      simp only [setStream, queue_drop_of, stream_disable_of, tx_queue_drop, getStream,
                 devObs, Stream.obs]
      refine ⟨trivial, trivial, trivial, trivial, ?_, ?_⟩
      · rw [(tx_stream_disable_tx pol d).1]
        exact (queueDrain_spec habs).2
      · have hd := (tx_stream_disable_tx pol d).2.2.2.2.2
        simpa [engineDisabled] using hd
  · intro lrx ltx hrx htx habsrx habstx
    simp only [i2s_stm32_trigger_full_duplex]
    rw [if_neg (by simp [hrx]), if_neg (by simp [htx]),
        if_neg (by simp [hrx]), if_neg (by simp [htx])]
    simp only [full_duplex_queue_drop, rx_queue_drop, tx_queue_drop, devObs, Stream.obs]
    refine ⟨trivial, trivial, trivial, trivial, trivial, ?_, ?_, ?_⟩
    · rw [(full_duplex_stream_disable_spec pol d).2.2.2.2.1]
      exact (queueDrain_spec habsrx).2
    · rw [(full_duplex_stream_disable_spec pol d).2.2.2.2.2.1]
      exact (queueDrain_spec habstx).2
    · have hd := (full_duplex_stream_disable_spec pol d).2.2.2.2.2.2.2.2
      simpa [bothDisabled] using hd

/-- Witness for C8 at a concrete device with both streams RUNNING and
empty queues (half-duplex part, TX direction). -/
theorem C8_witness :
    (getStream (sampleDev I2sState.RUNNING I2sState.RUNNING) Dir.tx).state = I2sState.RUNNING ∧
    abstracted (getStream (sampleDev I2sState.RUNNING I2sState.RUNNING) Dir.tx).mem_block_queue [] ∧
    ((i2s_stm32_trigger_half_duplex polBlock 0 Dir.tx TriggerCmd.STOP
        (sampleDev I2sState.RUNNING I2sState.RUNNING)).1 = 0 ∧
     (i2s_stm32_trigger_half_duplex polBlock 0 Dir.tx TriggerCmd.DRAIN
        (sampleDev I2sState.RUNNING I2sState.RUNNING)).1 = 0 ∧
     devObs (i2s_stm32_trigger_half_duplex polBlock 0 Dir.tx TriggerCmd.STOP
        (sampleDev I2sState.RUNNING I2sState.RUNNING)).2 =
       devObs (i2s_stm32_trigger_half_duplex polBlock 0 Dir.tx TriggerCmd.DRAIN
        (sampleDev I2sState.RUNNING I2sState.RUNNING)).2 ∧
     (getStream (i2s_stm32_trigger_half_duplex polBlock 0 Dir.tx TriggerCmd.STOP
        (sampleDev I2sState.RUNNING I2sState.RUNNING)).2 Dir.tx).state = I2sState.READY ∧
     abstracted
       (getStream (i2s_stm32_trigger_half_duplex polBlock 0 Dir.tx TriggerCmd.STOP
          (sampleDev I2sState.RUNNING I2sState.RUNNING)).2 Dir.tx).mem_block_queue [] ∧
     engineDisabled (i2s_stm32_trigger_half_duplex polBlock 0 Dir.tx TriggerCmd.STOP
        (sampleDev I2sState.RUNNING I2sState.RUNNING)).2.hw Dir.tx) :=
  ⟨by decide, by decide,
   (C8_stop_drain_same_effects polBlock (sampleDev I2sState.RUNNING I2sState.RUNNING)).1
     Dir.tx [] (by decide) (by decide)⟩

/-! Reductions of the disable routes in half-duplex operation. -/

theorem rx_disable_route_half (pol : Policy) (d : Dev)
    (hmode : isFullDuplexMode d.hw.transferMode = false) :
    rx_disable_route pol d = rx_stream_disable d := by
  unfold rx_disable_route
  simp [hmode]

theorem tx_disable_route_half (pol : Policy) (d : Dev)
    (hmode : isFullDuplexMode d.hw.transferMode = false) :
    tx_disable_route pol d = tx_stream_disable pol d := by
  unfold tx_disable_route
  simp [hmode]

/-- C4. Block-mode TX underrun is fatal: on a completion (status 0) with
the TX queue empty, no STOPPING request pending and `last_block` clear,
the stream ends the handler in ERROR and the TX transfer engine and
peripheral TX path are disabled (DMA request off, channel stopped,
peripheral and error interrupts off), in half-duplex operation under the
default block-mode policy. -/
theorem C4_tx_underrun_block_mode (pol : Policy) (d : Dev) (b : Nat) (r : Int)
    (hpol : pol.txUnderrunLastRepeat = false)
    (hmode : isFullDuplexMode d.hw.transferMode = false)
    (hmb : d.tx.mem_block = some b)
    (hempty : d.tx.mem_block_queue.tail = d.tx.mem_block_queue.head)
    (hstop : d.tx.state ≠ I2sState.STOPPING)
    (hlast : d.tx.last_block = false) :
    (dma_tx_callback pol 0 r d).tx.state = I2sState.ERROR ∧
    engineDisabled (dma_tx_callback pol 0 r d).hw Dir.tx := by
  obtain ⟨rx, tx, hw, aRx, aTx⟩ := d
  obtain ⟨st, mst, mb, mbs, lb, lmb, lmbs, tu, q, sc, slim, slb, cfg⟩ := tx
  obtain ⟨qbuf, qlen, qhead, qtail⟩ := q
  obtain ⟨prd, prr, prf⟩ := pol
  simp only at hmb hempty hstop hlast hpol hmode
  subst hmb hempty hlast hpol
  by_cases herr : st = I2sState.ERROR <;>
    simp [dma_tx_callback, queue_get, tx_disable_route, tx_stream_disable,
          setTxState, setRxState, engineDisabled, herr, hstop, hmode]

/-- Device for the C4 witness: TX RUNNING with a block in flight and an
empty TX queue. -/
def devTxBusy : Dev :=
  { sampleDev I2sState.READY I2sState.RUNNING with
      tx := { sampleStream I2sState.RUNNING with mem_block := some 200, mem_block_size := 4 } }

/-- Witness for C4 at `devTxBusy`. -/
theorem C4_witness :
    polBlock.txUnderrunLastRepeat = false ∧
    isFullDuplexMode devTxBusy.hw.transferMode = false ∧
    devTxBusy.tx.mem_block = some 200 ∧
    devTxBusy.tx.mem_block_queue.tail = devTxBusy.tx.mem_block_queue.head ∧
    devTxBusy.tx.state ≠ I2sState.STOPPING ∧
    devTxBusy.tx.last_block = false ∧
    ((dma_tx_callback polBlock 0 0 devTxBusy).tx.state = I2sState.ERROR ∧
     engineDisabled (dma_tx_callback polBlock 0 0 devTxBusy).hw Dir.tx) :=
  ⟨by decide, by decide, by decide, by decide, by decide, by decide,
   C4_tx_underrun_block_mode polBlock devTxBusy 200 0 (by decide) (by decide)
     (by decide) (by decide) (by decide) (by decide)⟩

/-! C5: the repeat-last-block TX underrun policy. -/

/-- Steady-state invariant of the repeat-last-block underrun loop: the
stream is RUNNING with no stop request, the TX queue is empty, the
underrun flag is set and the in-flight block is the cached last block. -/
def txRepeatInv (d : Dev) : Prop :=
  d.tx.state = I2sState.RUNNING ∧ d.tx.last_block = false ∧
  d.tx.mem_block_queue.tail = d.tx.mem_block_queue.head ∧
  d.tx.tx_underrun = true ∧ d.tx.mem_block = d.tx.last_mem_block ∧
  (∃ x, d.tx.mem_block = some x)

theorem tx_repeat_step (pol : Policy) (d : Dev)
    (hpol : pol.txUnderrunLastRepeat = true) (hinv : txRepeatInv d) :
    txRepeatInv (dma_tx_callback pol 0 0 d) ∧
    (dma_tx_callback pol 0 0 d).tx.sem_count = d.tx.sem_count ∧
    (dma_tx_callback pol 0 0 d).tx.last_mem_block = d.tx.last_mem_block ∧
    (dma_tx_callback pol 0 0 d).hw.dmaTxTarget = d.tx.last_mem_block ∧
    (dma_tx_callback pol 0 0 d).tx.slab = d.tx.slab := by
  obtain ⟨hstate, hlast, hempty, hunder, hmbl, x, hmb⟩ := hinv
  obtain ⟨rx, tx, hw, aRx, aTx⟩ := d
  obtain ⟨st, mst, mb, mbs, lb, lmb, lmbs, tu, q, sc, slim, slb, cfg⟩ := tx
  obtain ⟨qbuf, qlen, qhead, qtail⟩ := q
  obtain ⟨prd, prr, prf⟩ := pol
  simp only at hstate hlast hempty hunder hmbl hmb hpol
  subst hstate hlast hempty hunder hmb hpol
  rw [hmbl]
  simp [dma_tx_callback, queue_get, tx_arm_or_disable, txRepeatInv, ← hmbl]

theorem tx_repeat_entry (pol : Policy) (d : Dev) (b c : Nat)
    (hpol : pol.txUnderrunLastRepeat = true)
    (hstate : d.tx.state = I2sState.RUNNING)
    (hlast : d.tx.last_block = false)
    (hempty : d.tx.mem_block_queue.tail = d.tx.mem_block_queue.head)
    (hmb : d.tx.mem_block = some b)
    (hunder : d.tx.tx_underrun = false)
    (hlmb : d.tx.last_mem_block = some c) :
    txRepeatInv (dma_tx_callback pol 0 0 d) ∧
    (dma_tx_callback pol 0 0 d).tx.sem_count = d.tx.sem_count ∧
    (dma_tx_callback pol 0 0 d).tx.last_mem_block = some b ∧
    (dma_tx_callback pol 0 0 d).hw.dmaTxTarget = some b ∧
    (dma_tx_callback pol 0 0 d).tx.slab = c :: d.tx.slab := by
  obtain ⟨rx, tx, hw, aRx, aTx⟩ := d
  obtain ⟨st, mst, mb, mbs, lb, lmb, lmbs, tu, q, sc, slim, slb, cfg⟩ := tx
  obtain ⟨qbuf, qlen, qhead, qtail⟩ := q
  obtain ⟨prd, prr, prf⟩ := pol
  simp only at hstate hlast hempty hunder hmb hlmb hpol
  subst hstate hlast hempty hunder hmb hlmb hpol
  simp [dma_tx_callback, queue_get, tx_arm_or_disable, txRepeatInv, slabFree]

/-- C5. Repeat-last-block TX policy. Starting from a RUNNING TX stream
whose queue has drained to empty while a (real) block `b` is still in
flight (underrun flag clear, cached block `c` allocated at START): for
every number of further completions, the stream is still RUNNING (never
ERROR), the writer-visible semaphore count is exactly what it was (no
increment for any phantom send), and the block armed as the DMA target
is the cached last block, which from the first underrun on is `b`, the
last real block sent. -/
theorem C5_tx_repeat_last (pol : Policy) (d : Dev) (b c : Nat) (n : Nat)
    (hpol : pol.txUnderrunLastRepeat = true)
    (hstate : d.tx.state = I2sState.RUNNING)
    (hlast : d.tx.last_block = false)
    (hempty : d.tx.mem_block_queue.tail = d.tx.mem_block_queue.head)
    (hmb : d.tx.mem_block = some b)
    (hunder : d.tx.tx_underrun = false)
    (hlmb : d.tx.last_mem_block = some c) :
    ((fun e => dma_tx_callback pol 0 0 e)^[n + 1] d).tx.state = I2sState.RUNNING ∧
    ((fun e => dma_tx_callback pol 0 0 e)^[n + 1] d).tx.sem_count = d.tx.sem_count ∧
    ((fun e => dma_tx_callback pol 0 0 e)^[n + 1] d).tx.mem_block = some b ∧
    ((fun e => dma_tx_callback pol 0 0 e)^[n + 1] d).tx.last_mem_block = some b ∧
    ((fun e => dma_tx_callback pol 0 0 e)^[n + 1] d).hw.dmaTxTarget = some b := by
  have haux : ∀ k : Nat,
      txRepeatInv ((fun e => dma_tx_callback pol 0 0 e)^[k + 1] d) ∧
      ((fun e => dma_tx_callback pol 0 0 e)^[k + 1] d).tx.sem_count = d.tx.sem_count ∧
      ((fun e => dma_tx_callback pol 0 0 e)^[k + 1] d).tx.last_mem_block = some b ∧
      ((fun e => dma_tx_callback pol 0 0 e)^[k + 1] d).hw.dmaTxTarget = some b := by
    intro k
    induction k with
    | zero =>
      have he := tx_repeat_entry pol d b c hpol hstate hlast hempty hmb hunder hlmb
      simpa using ⟨he.1, he.2.1, he.2.2.1, he.2.2.2.1⟩
    | succ k ih =>
      obtain ⟨hinv, hsem, hlmb2, htgt⟩ := ih
      have hs := tx_repeat_step pol ((fun e => dma_tx_callback pol 0 0 e)^[k + 1] d) hpol hinv
      rw [Function.iterate_succ_apply']
      exact ⟨hs.1, by rw [hs.2.1, hsem], by rw [hs.2.2.1, hlmb2],
             by rw [hs.2.2.2.1, hlmb2]⟩
  obtain ⟨hinv, hsem, hlmb2, htgt⟩ := haux n
  refine ⟨hinv.1, hsem, ?_, hlmb2, htgt⟩
  rw [hinv.2.2.2.2.1, hlmb2]

/-- Device for the C5 witness: TX RUNNING in underrun-entry shape. -/
def devTxRepeat : Dev :=
  { sampleDev I2sState.READY I2sState.RUNNING with
      tx := { sampleStream I2sState.RUNNING with
                mem_block := some 200, mem_block_size := 4,
                last_mem_block := some 201, last_mem_block_size := 4 } }

/-- Witness for C5 at `devTxRepeat`, first subsequent completion. -/
theorem C5_witness :
    polRepeat.txUnderrunLastRepeat = true ∧
    devTxRepeat.tx.state = I2sState.RUNNING ∧
    devTxRepeat.tx.last_block = false ∧
    devTxRepeat.tx.mem_block_queue.tail = devTxRepeat.tx.mem_block_queue.head ∧
    devTxRepeat.tx.mem_block = some 200 ∧
    devTxRepeat.tx.tx_underrun = false ∧
    devTxRepeat.tx.last_mem_block = some 201 ∧
    (((fun e => dma_tx_callback polRepeat 0 0 e)^[0 + 1] devTxRepeat).tx.state =
       I2sState.RUNNING ∧
     ((fun e => dma_tx_callback polRepeat 0 0 e)^[0 + 1] devTxRepeat).tx.sem_count =
       devTxRepeat.tx.sem_count ∧
     ((fun e => dma_tx_callback polRepeat 0 0 e)^[0 + 1] devTxRepeat).tx.mem_block = some 200 ∧
     ((fun e => dma_tx_callback polRepeat 0 0 e)^[0 + 1] devTxRepeat).tx.last_mem_block =
       some 200 ∧
     ((fun e => dma_tx_callback polRepeat 0 0 e)^[0 + 1] devTxRepeat).hw.dmaTxTarget =
       some 200) :=
  ⟨by decide, by decide, by decide, by decide, by decide, by decide, by decide,
   C5_tx_repeat_last polRepeat devTxRepeat 200 201 0 (by decide) (by decide) (by decide)
     (by decide) (by decide) (by decide) (by decide)⟩

/-- C6. RX overrun-drop policy. On a completion (status 0, successful
reload) of a RUNNING RX stream whose queue already holds its full
capacity (`len - 1` entries): the just-completed block `b` is freed back
to the pool, the reader-visible semaphore is not incremented, the stream
stays RUNNING, and the queue is completely unchanged — so the reader can
never retrieve `b`; the freshly allocated block `blk` becomes the new
DMA target. -/
theorem C6_rx_overrun_drop (pol : Policy) (d : Dev) (b blk : Nat) (rest : List Nat)
    (l : List QueueItem)
    (hpol : pol.rxOverrunDrop = true)
    (hstate : d.rx.state = I2sState.RUNNING)
    (hmb : d.rx.mem_block = some b)
    (hslab : d.rx.slab = blk :: rest)
    (habs : abstracted d.rx.mem_block_queue l)
    (hfull : l.length = d.rx.mem_block_queue.len - 1) :
    (dma_rx_callback pol 0 0 d).rx.state = I2sState.RUNNING ∧
    (dma_rx_callback pol 0 0 d).rx.sem_count = d.rx.sem_count ∧
    (dma_rx_callback pol 0 0 d).rx.mem_block_queue = d.rx.mem_block_queue ∧
    (dma_rx_callback pol 0 0 d).rx.slab = b :: rest ∧
    (dma_rx_callback pol 0 0 d).rx.mem_block = some blk ∧
    (dma_rx_callback pol 0 0 d).hw =
      { d.hw with dmaRxRunning := true, dmaRxTarget := some blk } := by
  have hput := queue_put_full b d.rx.cfg.block_size habs hfull
  obtain ⟨rx, tx, hw, aRx, aTx⟩ := d
  obtain ⟨st, mst, mb, mbs, lb, lmb, lmbs, tu, q, sc, slim, slb, cfg⟩ := rx
  obtain ⟨prd, prr, prf⟩ := pol
  simp only at hstate hmb hslab hput hpol
  subst hstate hmb hslab hpol
  simp [dma_rx_callback, slabAlloc, hput]

/-- Device for the C6 witness: RX RUNNING with one block in flight, a
free block in the slab, and a completely full two-slot queue. -/
def devRxFull : Dev :=
  { sampleDev I2sState.RUNNING I2sState.READY with
      rx := { sampleStream I2sState.RUNNING with
                mem_block := some 300, mem_block_size := 4,
                mem_block_queue := { buf := [⟨10, 4⟩, ⟨11, 4⟩, ⟨0, 0⟩],
                                     len := 3, head := 2, tail := 0 },
                sem_count := 2 } }

/-- Witness for C6 at `devRxFull`. -/
theorem C6_witness :
    polDrop.rxOverrunDrop = true ∧
    devRxFull.rx.state = I2sState.RUNNING ∧
    devRxFull.rx.mem_block = some 300 ∧
    devRxFull.rx.slab = 100 :: [101, 102] ∧
    abstracted devRxFull.rx.mem_block_queue [⟨10, 4⟩, ⟨11, 4⟩] ∧
    [QueueItem.mk 10 4, QueueItem.mk 11 4].length = devRxFull.rx.mem_block_queue.len - 1 ∧
    ((dma_rx_callback polDrop 0 0 devRxFull).rx.state = I2sState.RUNNING ∧
     (dma_rx_callback polDrop 0 0 devRxFull).rx.sem_count = devRxFull.rx.sem_count ∧
     (dma_rx_callback polDrop 0 0 devRxFull).rx.mem_block_queue = devRxFull.rx.mem_block_queue ∧
     (dma_rx_callback polDrop 0 0 devRxFull).rx.slab = 300 :: [101, 102] ∧
     (dma_rx_callback polDrop 0 0 devRxFull).rx.mem_block = some 100 ∧
     (dma_rx_callback polDrop 0 0 devRxFull).hw =
       { devRxFull.hw with dmaRxRunning := true, dmaRxTarget := some 100 }) :=
  ⟨by decide, by decide, by decide, by decide, by decide, by decide,
   C6_rx_overrun_drop polDrop devRxFull 300 100 [101, 102] [⟨10, 4⟩, ⟨11, 4⟩]
     (by decide) (by decide) (by decide) (by decide) (by decide) (by decide)⟩

/-- A full-duplex device actively running in both directions. -/
def devFDRunning : Dev :=
  { rx := { sampleStream I2sState.RUNNING with mem_block := some 300, mem_block_size := 4 },
    tx := { sampleStream I2sState.RUNNING with mem_block := some 200, mem_block_size := 4 },
    hw := { sampleHw with i2sEnabled := true, dmaReqRx := true, dmaReqTx := true,
                          errItEnabled := true,
                          transferMode := TransferMode.MASTER_FULL_DUPLEX,
                          dmaRxRunning := true, dmaTxRunning := true,
                          dmaRxTarget := some 300, dmaTxTarget := some 200 },
    activeRx := true, activeTx := true }

/-- `devFDRunning` with one block queued for transmission, so the TX
completion handler reaches its `reload_dma` call. -/
def devFDRunningQ : Dev :=
  { devFDRunning with
      tx := { devFDRunning.tx with
                mem_block_queue := { buf := [⟨20, 4⟩, ⟨0, 0⟩, ⟨0, 0⟩],
                                     len := 3, head := 1, tail := 0 } } }

/-- C7 counterexample, refuting the claim at three concrete inputs.
(1) The peripheral error interrupt (`i2s_stm32_isr`) on a running
full-duplex device sets both streams to ERROR but does NOT disable
either stream's hardware — the peripheral, both DMA requests and both
DMA channels are still enabled when the handler returns. (2) A reload
failure in the RX completion handler (status 0, `reload_dma`
returning -1) disables both streams and marks TX as ERROR, but leaves
the RX stream's own state at RUNNING, not ERROR. (3) Symmetrically, a
reload failure in the TX completion handler leaves the TX stream's own
state at RUNNING. So neither the "sets both the RX and the TX stream's
state to ERROR" part (for reload failures) nor the "disables both
streams' hardware" part (for the error interrupt) holds as claimed. -/
theorem C7_counterexample :
    ((i2s_stm32_isr polFD devFDRunning).rx.state = I2sState.ERROR ∧
     (i2s_stm32_isr polFD devFDRunning).tx.state = I2sState.ERROR ∧
     (i2s_stm32_isr polFD devFDRunning).hw.i2sEnabled = true ∧
     (i2s_stm32_isr polFD devFDRunning).hw.dmaReqRx = true ∧
     (i2s_stm32_isr polFD devFDRunning).hw.dmaReqTx = true ∧
     (i2s_stm32_isr polFD devFDRunning).hw.dmaRxRunning = true ∧
     (i2s_stm32_isr polFD devFDRunning).hw.dmaTxRunning = true) ∧
    ((dma_rx_callback polFD 0 (-1) devFDRunning).rx.state = I2sState.RUNNING ∧
     (dma_rx_callback polFD 0 (-1) devFDRunning).tx.state = I2sState.ERROR ∧
     bothDisabled (dma_rx_callback polFD 0 (-1) devFDRunning).hw) ∧
    ((dma_tx_callback polFD 0 (-1) devFDRunningQ).tx.state = I2sState.RUNNING ∧
     (dma_tx_callback polFD 0 (-1) devFDRunningQ).rx.state = I2sState.ERROR ∧
     bothDisabled (dma_tx_callback polFD 0 (-1) devFDRunningQ).hw) := by
  refine ⟨by decide, by decide, by decide⟩

/-- C7 (amended). Full-duplex error coupling, as the code implements it.
With the peripheral in a full-duplex transfer mode: (1) a DMA error
status in the RX completion handler, (2) an allocation failure there,
and (3) a queue-put failure there in block mode each set BOTH streams'
states to ERROR and disable both streams' hardware within that handler
invocation; (4) an RX reload failure disables both streams and sets the
TX stream to ERROR but leaves the RX stream's own state unchanged;
(5) a DMA error status in the TX completion handler and (6) a TX
queue-get failure there in block mode (no STOPPING pending) set both
states to ERROR and disable both; (7) a TX reload failure (the next
block having been fetched from the queue) disables both streams and
sets the RX stream to ERROR but leaves the TX stream's own state
unchanged, under either TX policy; (8) the peripheral error interrupt
sets both states to ERROR but performs no hardware disable itself. -/
theorem C7_full_duplex_error_coupling (pol : Policy) (d : Dev)
    (hpol : pol.fullDuplex = true)
    (hmode : isFullDuplexMode d.hw.transferMode = true) :
    (∀ status r, status ≠ 0 →
      (dma_rx_callback pol status r d).rx.state = I2sState.ERROR ∧
      (dma_rx_callback pol status r d).tx.state = I2sState.ERROR ∧
      bothDisabled (dma_rx_callback pol status r d).hw) ∧
    (∀ b r, d.rx.mem_block = some b → d.rx.state ≠ I2sState.ERROR → d.rx.slab = [] →
      (dma_rx_callback pol 0 r d).rx.state = I2sState.ERROR ∧
      (dma_rx_callback pol 0 r d).tx.state = I2sState.ERROR ∧
      bothDisabled (dma_rx_callback pol 0 r d).hw) ∧
    (∀ b blk rest l, pol.rxOverrunDrop = false → d.rx.mem_block = some b →
      d.rx.state ≠ I2sState.ERROR → d.rx.slab = blk :: rest →
      abstracted d.rx.mem_block_queue l → l.length = d.rx.mem_block_queue.len - 1 →
      (dma_rx_callback pol 0 0 d).rx.state = I2sState.ERROR ∧
      (dma_rx_callback pol 0 0 d).tx.state = I2sState.ERROR ∧
      bothDisabled (dma_rx_callback pol 0 0 d).hw) ∧
    (∀ b blk rest r, r < 0 → d.rx.mem_block = some b → d.rx.state ≠ I2sState.ERROR →
      d.rx.slab = blk :: rest →
      (dma_rx_callback pol 0 r d).rx.state = d.rx.state ∧
      (dma_rx_callback pol 0 r d).tx.state = I2sState.ERROR ∧
      bothDisabled (dma_rx_callback pol 0 r d).hw) ∧
    (∀ status r, status ≠ 0 →
      (dma_tx_callback pol status r d).rx.state = I2sState.ERROR ∧
      (dma_tx_callback pol status r d).tx.state = I2sState.ERROR ∧
      bothDisabled (dma_tx_callback pol status r d).hw) ∧
    (∀ b r, pol.txUnderrunLastRepeat = false → d.tx.mem_block = some b →
      d.tx.mem_block_queue.tail = d.tx.mem_block_queue.head →
      d.tx.state ≠ I2sState.STOPPING → d.tx.state ≠ I2sState.ERROR →
      d.tx.last_block = false →
      (dma_tx_callback pol 0 r d).rx.state = I2sState.ERROR ∧
      (dma_tx_callback pol 0 r d).tx.state = I2sState.ERROR ∧
      bothDisabled (dma_tx_callback pol 0 r d).hw) ∧
    (∀ b rb2 it r, r < 0 → d.tx.mem_block = some b → d.tx.state ≠ I2sState.ERROR →
      d.tx.last_block = false → queue_get d.tx.mem_block_queue = some (rb2, it) →
      (dma_tx_callback pol 0 r d).tx.state = d.tx.state ∧
      (dma_tx_callback pol 0 r d).rx.state = I2sState.ERROR ∧
      bothDisabled (dma_tx_callback pol 0 r d).hw) ∧
    ((i2s_stm32_isr pol d).rx.state = I2sState.ERROR ∧
     (i2s_stm32_isr pol d).tx.state = I2sState.ERROR ∧
     (i2s_stm32_isr pol d).hw = d.hw) := by
  obtain ⟨rx, tx, hw, aRx, aTx⟩ := d
  obtain ⟨prd, prr, prf⟩ := pol
  simp only at hpol hmode
  subst hpol
  refine ⟨?_, ?_, ?_, ?_, ?_, ?_, ?_, ?_⟩
  · intro status r hs
    obtain ⟨rst, rmst, rmb, rmbs, rlb, rlmb, rlmbs, rtu, rq, rsc, rslim, rslb, rcfg⟩ := rx
    obtain ⟨tst, tmst, tmb, tmbs, tlb, tlmb, tlmbs, ttu, tq, tsc, tslim, tslb, tcfg⟩ := tx
    cases rmb <;> cases tmb <;> cases prr <;>
      simp [dma_rx_callback, hs, rx_disable_route, setRxState, setTxState,
            full_duplex_stream_disable, slabFree, bothDisabled, hmode]
  · intro b r hmb hne hslab
    obtain ⟨rst, rmst, rmb, rmbs, rlb, rlmb, rlmbs, rtu, rq, rsc, rslim, rslb, rcfg⟩ := rx
    obtain ⟨tst, tmst, tmb, tmbs, tlb, tlmb, tlmbs, ttu, tq, tsc, tslim, tslb, tcfg⟩ := tx
    simp only at hmb hne hslab
    subst hmb hslab
    cases tmb <;> cases prr <;>
      simp [dma_rx_callback, hne, slabAlloc, rx_disable_route, setRxState, setTxState,
            full_duplex_stream_disable, slabFree, bothDisabled, hmode]
  · intro b blk rest l hdrop hmb hne hslab habs hfull
    have hput := queue_put_full b rx.cfg.block_size habs hfull
    obtain ⟨rst, rmst, rmb, rmbs, rlb, rlmb, rlmbs, rtu, rq, rsc, rslim, rslb, rcfg⟩ := rx
    obtain ⟨tst, tmst, tmb, tmbs, tlb, tlmb, tlmbs, ttu, tq, tsc, tslim, tslb, tcfg⟩ := tx
    simp only at hmb hne hslab hdrop hput
    subst hmb hslab hdrop
    cases tmb <;> cases prr <;>
      simp [dma_rx_callback, hne, slabAlloc, hput, rx_disable_route, setRxState, setTxState,
            full_duplex_stream_disable, slabFree, bothDisabled, hmode]
  · intro b blk rest r hr hmb hne hslab
    obtain ⟨rst, rmst, rmb, rmbs, rlb, rlmb, rlmbs, rtu, rq, rsc, rslim, rslb, rcfg⟩ := rx
    obtain ⟨tst, tmst, tmb, tmbs, tlb, tlmb, tlmbs, ttu, tq, tsc, tslim, tslb, tcfg⟩ := tx
    simp only at hmb hne hslab
    subst hmb hslab
    have hr2 : ¬ (0 : Int) ≤ r := by omega
    cases tmb <;> cases prr <;>
      simp [dma_rx_callback, hne, slabAlloc, hr, hr2, rx_disable_route, setRxState, setTxState,
            full_duplex_stream_disable, slabFree, bothDisabled, hmode]
  · intro status r hs
    obtain ⟨rst, rmst, rmb, rmbs, rlb, rlmb, rlmbs, rtu, rq, rsc, rslim, rslb, rcfg⟩ := rx
    obtain ⟨tst, tmst, tmb, tmbs, tlb, tlmb, tlmbs, ttu, tq, tsc, tslim, tslb, tcfg⟩ := tx
    cases rmb <;> cases tmb <;> cases prr <;>
      simp [dma_tx_callback, hs, tx_disable_route, setRxState, setTxState,
            full_duplex_stream_disable, slabFree, bothDisabled, hmode]
  · intro b r hrep hmb hempty hstop hne hlast
    obtain ⟨rst, rmst, rmb, rmbs, rlb, rlmb, rlmbs, rtu, rq, rsc, rslim, rslb, rcfg⟩ := rx
    obtain ⟨tst, tmst, tmb, tmbs, tlb, tlmb, tlmbs, ttu, tq, tsc, tslim, tslb, tcfg⟩ := tx
    obtain ⟨tqbuf, tqlen, tqhead, tqtail⟩ := tq
    simp only at hrep hmb hempty hstop hne hlast
    subst hrep hmb hempty hlast
    cases rmb <;>
      simp [dma_tx_callback, queue_get, hstop, hne, tx_disable_route, setRxState, setTxState,
            full_duplex_stream_disable, slabFree, bothDisabled, hmode]
  · intro b rb2 it r hr hmb hne hlast hget
    obtain ⟨rst, rmst, rmb, rmbs, rlb, rlmb, rlmbs, rtu, rq, rsc, rslim, rslb, rcfg⟩ := rx
    obtain ⟨tst, tmst, tmb, tmbs, tlb, tlmb, tlmbs, ttu, tq, tsc, tslim, tslb, tcfg⟩ := tx
    simp only at hmb hne hlast hget
    subst hmb hlast
    cases rmb <;> cases prr <;> cases ttu <;> cases tlmb <;>
      simp [dma_tx_callback, hget, hne, hr, tx_arm_or_disable, tx_disable_route,
            setRxState, setTxState, full_duplex_stream_disable, slabFree, semGive,
            bothDisabled, hmode]
  · simp [i2s_stm32_isr, setRxState, setTxState, hmode]

/-- Witness for C7 at `devFDRunning` (DMA error status case). -/
theorem C7_witness :
    polFD.fullDuplex = true ∧
    isFullDuplexMode devFDRunning.hw.transferMode = true ∧
    ((dma_rx_callback polFD (-1) 0 devFDRunning).rx.state = I2sState.ERROR ∧
     (dma_rx_callback polFD (-1) 0 devFDRunning).tx.state = I2sState.ERROR ∧
     bothDisabled (dma_rx_callback polFD (-1) 0 devFDRunning).hw) :=
  ⟨by decide, by decide,
   (C7_full_duplex_error_coupling polFD devFDRunning (by decide) (by decide)).1
     (-1) 0 (by decide)⟩

/-! C9: configuration rejection. -/

/-- A configuration with an unsupported word size (and a slave role, to
make the premature role update visible). -/
def badWordCfg : I2sConfig := { sampleCfg with word_size := 20, bit_clk_slave := true }

/-- C9 counterexample: configuring TX of a READY device (master role,
stored word size 16) with an unsupported word size 20 returns `-EINVAL`
as claimed, but the call is NOT free of state change: the stream's
stored configuration has already been overwritten with the rejected
configuration and the master/slave role recomputed from it, because
`i2s_stm32_configure` validates the word size only after
`i2s_stm32_configure_stream` has copied the new configuration in. -/
theorem C9_counterexample :
    (i2s_stm32_configure polBlock (sampleDev I2sState.READY I2sState.READY)
      I2sDir.TX badWordCfg).1 = EINVALcode ∧
    (i2s_stm32_configure polBlock (sampleDev I2sState.READY I2sState.READY)
      I2sDir.TX badWordCfg).2.tx.cfg ≠ (sampleDev I2sState.READY I2sState.READY).tx.cfg ∧
    (i2s_stm32_configure polBlock (sampleDev I2sState.READY I2sState.READY)
      I2sDir.TX badWordCfg).2.tx.cfg = badWordCfg ∧
    (i2s_stm32_configure polBlock (sampleDev I2sState.READY I2sState.READY)
      I2sDir.TX badWordCfg).2.tx.master = false ∧
    (sampleDev I2sState.READY I2sState.READY).tx.master = true := by
  decide

/-- Map a stream direction to the corresponding API direction. -/
def dirApi : Dir → I2sDir
  | Dir.rx => I2sDir.RX
  | Dir.tx => I2sDir.TX

/-- C9 (amended). A configure call on a configurable stream (state
NOT_READY or READY) with a nonzero frame clock and an unsupported word
size (not 16/24/32) or unsupported data format returns `-EINVAL` and
leaves the stream's state field unchanged (the stream does not become
READY), but it does NOT leave the stored configuration and role
untouched: by the time validation fails they have already been
overwritten with the new configuration's values. -/
theorem C9_configure_invalid (pol : Policy) (d : Dev) (dir : Dir) (i2s_cfg : I2sConfig)
    (hstate : (getStream d dir).state = I2sState.NOT_READY ∨
              (getStream d dir).state = I2sState.READY)
    (hfreq : i2s_cfg.frame_clk_freq ≠ 0)
    (hbad : ¬ (i2s_cfg.word_size = 16 ∨ i2s_cfg.word_size = 24 ∨ i2s_cfg.word_size = 32) ∨
            ¬ i2s_cfg.data_format ≤ 4) :
    (i2s_stm32_configure pol d (dirApi dir) i2s_cfg).1 = EINVALcode ∧
    (getStream (i2s_stm32_configure pol d (dirApi dir) i2s_cfg).2 dir).state =
      (getStream d dir).state ∧
    (getStream (i2s_stm32_configure pol d (dirApi dir) i2s_cfg).2 dir).cfg = i2s_cfg ∧
    (getStream (i2s_stm32_configure pol d (dirApi dir) i2s_cfg).2 dir).master =
      !(i2s_cfg.frame_clk_slave || i2s_cfg.bit_clk_slave) := by
  cases dir with
  | rx =>
    obtain ⟨rx, tx, hw, aRx, aTx⟩ := d
    obtain ⟨rst, rmst, rmb, rmbs, rlb, rlmb, rlmbs, rtu, rq, rsc, rslim, rslb, rcfg⟩ := rx
    simp only [getStream] at hstate ⊢
    have hg : ¬ (rst ≠ I2sState.NOT_READY ∧ rst ≠ I2sState.READY) := by
      rcases hstate with h | h <;> simp [h]
    rcases hbad with hA | hB
    · simp [i2s_stm32_configure, dirApi, i2s_stm32_configure_stream, setStream,
            getStream, setRxState, setTxState, hg, hfreq, hA]
    · by_cases hA2 : i2s_cfg.word_size = 16 ∨ i2s_cfg.word_size = 24 ∨ i2s_cfg.word_size = 32 <;>
        simp [i2s_stm32_configure, dirApi, i2s_stm32_configure_stream, setStream,
              getStream, setRxState, setTxState, hg, hfreq, hA2, hB]
  | tx =>
    obtain ⟨rx, tx, hw, aRx, aTx⟩ := d
    obtain ⟨tst, tmst, tmb, tmbs, tlb, tlmb, tlmbs, ttu, tq, tsc, tslim, tslb, tcfg⟩ := tx
    simp only [getStream] at hstate ⊢
    have hg : ¬ (tst ≠ I2sState.NOT_READY ∧ tst ≠ I2sState.READY) := by
      rcases hstate with h | h <;> simp [h]
    rcases hbad with hA | hB
    · simp [i2s_stm32_configure, dirApi, i2s_stm32_configure_stream, setStream,
            getStream, setRxState, setTxState, hg, hfreq, hA]
    · by_cases hA2 : i2s_cfg.word_size = 16 ∨ i2s_cfg.word_size = 24 ∨ i2s_cfg.word_size = 32 <;>
        simp [i2s_stm32_configure, dirApi, i2s_stm32_configure_stream, setStream,
              getStream, setRxState, setTxState, hg, hfreq, hA2, hB]

/-- Witness for the amended C9 at a concrete READY TX stream. -/
theorem C9_witness :
    ((getStream (sampleDev I2sState.READY I2sState.READY) Dir.tx).state = I2sState.NOT_READY ∨
     (getStream (sampleDev I2sState.READY I2sState.READY) Dir.tx).state = I2sState.READY) ∧
    badWordCfg.frame_clk_freq ≠ 0 ∧
    (¬ (badWordCfg.word_size = 16 ∨ badWordCfg.word_size = 24 ∨ badWordCfg.word_size = 32) ∨
     ¬ badWordCfg.data_format ≤ 4) ∧
    ((i2s_stm32_configure polBlock (sampleDev I2sState.READY I2sState.READY)
        (dirApi Dir.tx) badWordCfg).1 = EINVALcode ∧
     (getStream (i2s_stm32_configure polBlock (sampleDev I2sState.READY I2sState.READY)
        (dirApi Dir.tx) badWordCfg).2 Dir.tx).state =
       (getStream (sampleDev I2sState.READY I2sState.READY) Dir.tx).state ∧
     (getStream (i2s_stm32_configure polBlock (sampleDev I2sState.READY I2sState.READY)
        (dirApi Dir.tx) badWordCfg).2 Dir.tx).cfg = badWordCfg ∧
     (getStream (i2s_stm32_configure polBlock (sampleDev I2sState.READY I2sState.READY)
        (dirApi Dir.tx) badWordCfg).2 Dir.tx).master =
       !(badWordCfg.frame_clk_slave || badWordCfg.bit_clk_slave)) :=
  ⟨by decide, by decide, by decide,
   C9_configure_invalid polBlock (sampleDev I2sState.READY I2sState.READY) Dir.tx badWordCfg
     (by decide) (by decide) (by decide)⟩

/-! C10: TX START on an empty queue, and write-before-START. -/

/-- C10. In the default block-mode TX policy: (a) a START trigger on a
READY TX stream with an empty queue fails — `tx_stream_start_dma`'s
`queue_get` returns `-ENOMEM`, which is propagated to the caller — and
the device (in particular the stream, still READY) is completely
unchanged; (b) a write is accepted while the stream is READY (before
START): given a free semaphore slot and room in the queue, it returns 0,
appends the block to the TX queue and leaves the state READY. Hence at
least one successful write must precede START on TX. -/
theorem C10_tx_start_needs_write (pol : Policy) (dmaRet : Int) (d : Dev)
    (hpol : pol.txUnderrunLastRepeat = false)
    (hready : d.tx.state = I2sState.READY)
    (hempty : d.tx.mem_block_queue.tail = d.tx.mem_block_queue.head) :
    i2s_stm32_trigger_half_duplex pol dmaRet Dir.tx TriggerCmd.START d = (ENOMEMcode, d) ∧
    (∀ mb sz l, 0 < d.tx.sem_count → abstracted d.tx.mem_block_queue l →
      l.length + 1 < d.tx.mem_block_queue.len →
      (i2s_stm32_write d mb sz).1 = 0 ∧
      abstracted (i2s_stm32_write d mb sz).2.tx.mem_block_queue (l ++ [⟨mb, sz⟩]) ∧
      (i2s_stm32_write d mb sz).2.tx.state = I2sState.READY) := by
  constructor
  · obtain ⟨rx, tx, hw, aRx, aTx⟩ := d
    obtain ⟨tst, tmst, tmb, tmbs, tlb, tlmb, tlmbs, ttu, tq, tsc, tslim, tslb, tcfg⟩ := tx
    obtain ⟨tqbuf, tqlen, tqhead, tqtail⟩ := tq
    obtain ⟨prd, prr, prf⟩ := pol
    simp only at hready hempty hpol
    subst hready hempty hpol
    simp [i2s_stm32_trigger_half_duplex, getStream, setStream, stream_start_of,
          tx_stream_start, tx_stream_start_dma, queue_get, ENOMEMcode]
  · intro mb sz l hsem habs hroom
    have hput := queue_put_ok mb sz habs hroom
    obtain ⟨rx, tx, hw, aRx, aTx⟩ := d
    obtain ⟨tst, tmst, tmb, tmbs, tlb, tlmb, tlmbs, ttu, tq, tsc, tslim, tslb, tcfg⟩ := tx
    simp only at hready hsem hput ⊢
    subst hready
    have hsem2 : ¬ tsc = 0 := by omega
    refine ⟨?_, ?_, ?_⟩
    · simp [i2s_stm32_write, hsem2, hput.1]
    · have h2 := hput.2
      simp only [rbAfterPut] at h2
      simpa [i2s_stm32_write, hsem2, hput.1, rbAfterPut] using h2
    · simp [i2s_stm32_write, hsem2, hput.1]

/-- Device for the C10 witness: TX READY, empty queue, free semaphore
slots. -/
def devTxReady : Dev :=
  { sampleDev I2sState.READY I2sState.READY with
      tx := { sampleStream I2sState.READY with sem_count := 3 } }

/-- Witness for C10 at `devTxReady`: the failed START and a first
accepted write of the tagged block (7, 4). -/
theorem C10_witness :
    polBlock.txUnderrunLastRepeat = false ∧
    devTxReady.tx.state = I2sState.READY ∧
    devTxReady.tx.mem_block_queue.tail = devTxReady.tx.mem_block_queue.head ∧
    i2s_stm32_trigger_half_duplex polBlock 0 Dir.tx TriggerCmd.START devTxReady =
      (ENOMEMcode, devTxReady) ∧
    ((i2s_stm32_write devTxReady 7 4).1 = 0 ∧
     abstracted (i2s_stm32_write devTxReady 7 4).2.tx.mem_block_queue ([] ++ [⟨7, 4⟩]) ∧
     (i2s_stm32_write devTxReady 7 4).2.tx.state = I2sState.READY) :=
  ⟨by decide, by decide, by decide,
   (C10_tx_start_needs_write polBlock 0 devTxReady (by decide) (by decide) (by decide)).1,
   (C10_tx_start_needs_write polBlock 0 devTxReady (by decide) (by decide) (by decide)).2
     7 4 [] (by decide) (by decide) (by decide)⟩

/-- Trace for the C1 witness. -/
def c1ops : List QOp :=
  [QOp.put 10 4, QOp.put 11 4, QOp.get, QOp.put 12 4, QOp.get, QOp.get]

/-- Final ring buffer of the C1 witness trace. -/
def c1rb : RingBuf :=
  { buf := [⟨10, 4⟩, ⟨11, 4⟩, ⟨12, 4⟩], len := 3, head := 0, tail := 0 }

/-- Items returned by the gets of the C1 witness trace. -/
def c1gots : List QueueItem := [⟨10, 4⟩, ⟨11, 4⟩, ⟨12, 4⟩]

/-- Witness for C1 on a concrete 3-put/3-get trace over a queue of
capacity 2 (3 physical slots). -/
theorem C1_witness :
    runQueue (emptyRB 2) c1ops = some (c1rb, c1gots) ∧
    (c1gots = (putsOf c1ops).take (numGets c1ops) ∧
     rbCount c1rb = numPuts c1ops - numGets c1ops ∧
     numGets c1ops ≤ numPuts c1ops ∧
     c1rb.len = 2 + 1 ∧
     (∀ mb sz, (queue_put c1rb mb sz).isSome ↔ numPuts c1ops - numGets c1ops < 2)) :=
  ⟨by decide, C1_block_queue_fifo 2 c1ops c1rb c1gots (by decide)⟩
